import Mathlib

/-!
# StateEvaluator of the nymea rule engine

A shallow embedding of `libnymea-core/ruleengine/stateevaluator.cpp`: the
recursive condition tree of a rule, its evaluation against the configured
things, its validity check and the removal of a thing from the tree.

Identifiers (`QUuid`) are natural numbers, the null uuid being `0`.
`QString` is `String`, `QList` is `List`.  A `QVariant` is a tagged value
restricted to the kinds the rule engine compares (bool, int, string).
-/

namespace nymeaserver

/-! ## Identifiers and values -/

/-- A `QUuid`: the 128-bit value as a natural number, `0` being the null uuid. -/
abbrev QUuid := Nat

abbrev ThingId := QUuid
abbrev StateTypeId := QUuid
abbrev ThingClassId := QUuid

/-- `QUuid::isNull`. -/
def QUuid.isNull (id : QUuid) : Bool := id == 0

/-- `QVariant::Type`, restricted to the kinds modelled here. -/
inductive QVariantType where
  | Invalid
  | Bool
  | Int
  | String
  deriving DecidableEq, Repr

/-- A `QVariant` holding nothing (`Invalid`), a bool, an int or a string. -/
inductive QVariant where
  | invalid
  | bool (b : Bool)
  | int (i : Int)
  | string (s : String)
  deriving DecidableEq, Repr

/-- `QVariant::type`. -/
def QVariant.type : QVariant → QVariantType
  | .invalid => .Invalid
  | .bool _ => .Bool
  | .int _ => .Int
  | .string _ => .String

/-- `QVariant::isValid`: the variant holds a value. -/
def QVariant.isValid (v : QVariant) : Bool :=
  v.type != .Invalid

/-- `QVariant::convert` of Qt, on the modelled kinds: `none` where Qt returns
false, otherwise the converted variant.  Converting to the variant's own
type always succeeds and changes nothing. -/
def QVariant.convert (v : QVariant) (t : QVariantType) : Option QVariant :=
  match v, t with
  | .invalid, .Invalid => some .invalid
  | .bool b, .Bool => some (.bool b)
  | .bool b, .Int => some (.int (if b then 1 else 0))
  | .bool b, .String => some (.string (if b then "true" else "false"))
  | .int i, .Int => some (.int i)
  | .int i, .Bool => some (.bool (i != 0))
  | .int i, .String => some (.string (toString i))
  | .string s, .String => some (.string s)
  | .string s, .Int => s.toInt?.map QVariant.int
  | .string s, .Bool => some (.bool (!(s.isEmpty || s.toLower == "0" || s.toLower == "false")))
  | _, _ => none

/-- `QVariant::operator==` of Qt, on the modelled kinds: the right operand is
converted to the type of the left one and the payloads are compared. -/
def QVariant.equals (a b : QVariant) : Bool :=
  match b.convert a.type with
  | some c => decide (a = c)
  | none => false

/-- `QVariant::operator<` of Qt, on the modelled kinds: the right operand is
converted to the type of the left one; ints by value, bools with false
below true, strings lexicographically. -/
def QVariant.lessThan (a b : QVariant) : Bool :=
  match a, b.convert a.type with
  | .int x, some (.int y) => decide (x < y)
  | .bool x, some (.bool y) => !x && y
  | .string x, some (.string y) => decide (x < y)
  | _, _ => false

/-- `QVariant::operator>` of Qt: the mirrored `operator<`. -/
def QVariant.greaterThan (a b : QVariant) : Bool :=
  QVariant.lessThan b a

namespace Types

/-- `Types::ValueOperator`. -/
inductive ValueOperator where
  | ValueOperatorEquals
  | ValueOperatorNotEquals
  | ValueOperatorLess
  | ValueOperatorGreater
  | ValueOperatorLessOrEqual
  | ValueOperatorGreaterOrEqual
  deriving DecidableEq, Repr

/-- `Types::StateOperator`. -/
inductive StateOperator where
  | StateOperatorAnd
  | StateOperatorOr
  deriving DecidableEq, Repr

end Types

open Types

/-- Modelled from the spec: the value comparison of section 4.1,
`compare(actual, op, target)`, which is not among the sources.  The target
is coerced to the kind of the actual value; a failed coercion, an invalid
actual value, or an ordering operator on bools or strings gives false. -/
def compare (actual : QVariant) (op : ValueOperator) (target : QVariant) : Bool :=
  match actual, target.convert actual.type with
  | .int a, some (.int t) =>
    match op with
    | .ValueOperatorEquals => decide (a = t)
    | .ValueOperatorNotEquals => decide (a ≠ t)
    | .ValueOperatorLess => decide (a < t)
    | .ValueOperatorGreater => decide (a > t)
    | .ValueOperatorLessOrEqual => decide (a ≤ t)
    | .ValueOperatorGreaterOrEqual => decide (a ≥ t)
  | .bool a, some (.bool t) =>
    match op with
    | .ValueOperatorEquals => a == t
    | .ValueOperatorNotEquals => a != t
    | _ => false
  | .string a, some (.string t) =>
    match op with
    | .ValueOperatorEquals => a == t
    | .ValueOperatorNotEquals => a != t
    | _ => false
  | _, _ => false

/-! ## The thing registry (libnymea types and the ThingManager) -/

/-- Modelled from the spec: the `State` of a thing (libnymea, not among the
sources): the state type, the owning thing and the current value. -/
structure State where
  stateTypeId : StateTypeId
  thingId : ThingId
  value : QVariant
  deriving DecidableEq, Repr

/-- Modelled from the spec: the `StateType` declared by a thing class
(libnymea, not among the sources), with the constraints of the spec's
`StateTypeConstraints`: declared type, minimum, maximum and allowed values. -/
structure StateType where
  id : StateTypeId
  name : String
  type : QVariantType
  minValue : QVariant
  maxValue : QVariant
  possibleValues : List QVariant
  deriving DecidableEq, Repr

/-- Modelled from the spec: the `ThingClass` (libnymea, not among the
sources): its id, the interfaces it declares and its state types. -/
structure ThingClass where
  id : ThingClassId
  interfaces : List String
  stateTypes : List StateType
  deriving DecidableEq, Repr

/-- Modelled from the spec: a configured `Thing` (libnymea, not among the
sources): its id, its class and its current states. -/
structure Thing where
  id : ThingId
  thingClassId : ThingClassId
  states : List State
  deriving DecidableEq, Repr

/-- Modelled from the spec: a state declared by an interface (libnymea, not
among the sources), identified by its name. -/
structure InterfaceStateType where
  name : String
  deriving DecidableEq, Repr

/-- Modelled from the spec: an `Interface` (libnymea, not among the
sources): a named capability with the states it declares. -/
structure Interface where
  name : String
  stateTypes : List InterfaceStateType
  deriving DecidableEq, Repr

/-- Modelled from the spec: the registry behind
`NymeaCore::instance()->thingManager()` (not among the sources): the
configured things, the known thing classes and the supported interfaces. -/
structure ThingManager where
  configuredThings : List Thing
  thingClasses : List ThingClass
  supportedInterfaces : List Interface
  deriving DecidableEq, Repr

/-- Modelled from the spec: the default-constructed `State`, returned by
`Thing::state` for a state type the thing does not have. -/
def State.null : State :=
  { stateTypeId := 0, thingId := 0, value := .invalid }

/-- Modelled from the spec: the default-constructed `StateType`, returned by
`findByName` when no state type has the name: null id, empty name. -/
def StateType.null : StateType :=
  { id := 0, name := "", type := .Invalid, minValue := .invalid, maxValue := .invalid,
    possibleValues := [] }

/-- Modelled from the spec: the default-constructed `ThingClass`, returned
by `findThingClass` for an unknown class id. -/
def ThingClass.null : ThingClass :=
  { id := 0, interfaces := [], stateTypes := [] }

/-- Modelled from the spec: `ThingClass::isValid`, false for the
default-constructed class (null id). -/
def ThingClass.isValid (c : ThingClass) : Bool :=
  !c.id.isNull

/-- Modelled from the spec: `Interface::isValid`, false for the
default-constructed interface (empty name). -/
def Interface.isValid (i : Interface) : Bool :=
  !i.name.isEmpty

/-- Modelled from the spec: `StateTypes::findByName`, the first state type
of that name, the default-constructed one when there is none. -/
def StateType.findByName (stateTypes : List StateType) (name : String) : StateType :=
  (stateTypes.find? (fun st => st.name == name)).getD StateType.null

/-- Modelled from the spec: `InterfaceStateTypes::findByName`, the first
state of that name, one with an empty name when there is none. -/
def InterfaceStateType.findByName (stateTypes : List InterfaceStateType) (name : String) :
    InterfaceStateType :=
  (stateTypes.find? (fun st => st.name == name)).getD { name := "" }

/-- Modelled from the spec: `Interfaces::findByName`, the first interface of
that name, the default-constructed one when there is none. -/
def Interface.findByName (interfaces : List Interface) (name : String) : Interface :=
  (interfaces.find? (fun i => i.name == name)).getD { name := "", stateTypes := [] }

/-- Modelled from the spec: `Thing::hasState`, the spec's `ThingHasState`. -/
def Thing.hasState (t : Thing) (stateTypeId : StateTypeId) : Bool :=
  t.states.any (fun s => s.stateTypeId == stateTypeId)

/-- Modelled from the spec: `Thing::state`, the spec's `CurrentStateValue`:
the thing's state of that type, the default-constructed state when the
thing has none. -/
def Thing.state (t : Thing) (stateTypeId : StateTypeId) : State :=
  (t.states.find? (fun s => s.stateTypeId == stateTypeId)).getD State.null

/-- Modelled from the spec: `ThingManager::findConfiguredThing`, the spec's
`ThingExists`: the configured thing with that id, `none` for the null
pointer returned when there is none. -/
def ThingManager.findConfiguredThing (tm : ThingManager) (id : ThingId) : Option Thing :=
  tm.configuredThings.find? (fun t => t.id == id)

/-- Modelled from the spec: `ThingManager::findThingClass`: the class with
that id, the default-constructed (invalid) class when there is none. -/
def ThingManager.findThingClass (tm : ThingManager) (id : ThingClassId) : ThingClass :=
  (tm.thingClasses.find? (fun c => c.id == id)).getD ThingClass.null

/-! ## StateDescriptor -/

/-- `StateDescriptor::Type`. -/
inductive StateDescriptor.Type where
  | TypeDevice
  | TypeInterface
  deriving DecidableEq, Repr

/-- The members of a `StateDescriptor`, as `dumpToSettings` reads them: the
by-thing pair (state type, thing), the by-interface pair (interface, state
name), the target value and the comparison operator. -/
structure StateDescriptor where
  stateTypeId : StateTypeId
  thingId : ThingId
  interface : String
  interfaceState : String
  stateValue : QVariant
  operatorType : ValueOperator
  deriving DecidableEq, Repr

namespace StateDescriptor

/-- Modelled from the spec: the default constructor `StateDescriptor()`,
the unset descriptor: null ids, empty names, no value. -/
def empty : StateDescriptor :=
  { stateTypeId := 0, thingId := 0, interface := "", interfaceState := "",
    stateValue := .invalid, operatorType := .ValueOperatorEquals }

/-- Modelled from the spec: the by-thing constructor
`StateDescriptor(stateTypeId, thingId, stateValue, operatorType)`. -/
def byThing (stateTypeId : StateTypeId) (thingId : ThingId) (stateValue : QVariant)
    (operatorType : ValueOperator) : StateDescriptor :=
  { stateTypeId := stateTypeId, thingId := thingId, interface := "", interfaceState := "",
    stateValue := stateValue, operatorType := operatorType }

/-- Modelled from the spec: the by-interface constructor
`StateDescriptor(interface, interfaceState, stateValue, operatorType)`. -/
def byInterface (interface interfaceState : String) (stateValue : QVariant)
    (operatorType : ValueOperator) : StateDescriptor :=
  { stateTypeId := 0, thingId := 0, interface := interface, interfaceState := interfaceState,
    stateValue := stateValue, operatorType := operatorType }

/-- Modelled from the spec: `StateDescriptor::type`, by-thing when both the
thing id and the state type id are set, by-interface otherwise. -/
def type (d : StateDescriptor) : StateDescriptor.Type :=
  if !d.thingId.isNull && !d.stateTypeId.isNull then .TypeDevice else .TypeInterface

/-- Modelled from the spec: `StateDescriptor::isValid`, true when the
descriptor is set: a thing and state type, or an interface and state name,
together with a target value.  The unset descriptor is not valid, which is
what the spec and `StateEvaluator::isEmpty` call an empty descriptor. -/
def isValid (d : StateDescriptor) : Bool :=
  ((!d.thingId.isNull && !d.stateTypeId.isNull)
    || (!d.interface.isEmpty && !d.interfaceState.isEmpty)) && d.stateValue.isValid

/-- Modelled from the spec: `StateDescriptor::operator==(const State &)`,
the spec's `matches` for one state: the state is the one the descriptor
names and its current value satisfies the operator against the target. -/
def matchesState (d : StateDescriptor) (state : State) : Bool :=
  if d.stateTypeId != state.stateTypeId || d.thingId != state.thingId then false
  else compare state.value d.operatorType d.stateValue

end StateDescriptor

/-! ## StateEvaluator -/

/-- The members of a `StateEvaluator`: `m_stateDescriptor`,
`m_childEvaluators` (owned copies, in list order) and `m_operatorType`. -/
inductive StateEvaluator where
  | mk (m_stateDescriptor : StateDescriptor) (m_childEvaluators : List StateEvaluator)
      (m_operatorType : StateOperator)

namespace StateEvaluator

/-- `StateEvaluator::stateDescriptor`. -/
def stateDescriptor : StateEvaluator → StateDescriptor
  | .mk d _ _ => d

/-- `StateEvaluator::childEvaluators`. -/
def childEvaluators : StateEvaluator → List StateEvaluator
  | .mk _ cs _ => cs

/-- `StateEvaluator::operatorType`. -/
def operatorType : StateEvaluator → StateOperator
  | .mk _ _ op => op

/-- The constructor `StateEvaluator(const StateDescriptor &)`: a leaf with
operator AND. -/
def ofDescriptor (stateDescriptor : StateDescriptor) : StateEvaluator :=
  .mk stateDescriptor [] .StateOperatorAnd

/-- The constructor `StateEvaluator(QList<StateEvaluator>, StateOperator)`:
an unset descriptor over the given children. -/
def ofChildren (childEvaluators : List StateEvaluator) (stateOperator : StateOperator) :
    StateEvaluator :=
  .mk StateDescriptor.empty childEvaluators stateOperator

/-- The loop of `evaluate` over the configured things for a by-interface
descriptor (lines 136-152): a thing whose class is unknown is skipped; the
first thing whose class declares the interface and whose state of that name
matches a descriptor built for it ends the loop with true. -/
def interfaceMatching (tm : ThingManager) (d : StateDescriptor) : List Thing → Bool
  | [] => false
  | device :: rest =>
    let thingClass := tm.findThingClass device.thingClassId
    if !thingClass.isValid then interfaceMatching tm d rest
    else if thingClass.interfaces.contains d.interface then
      let stateType := StateType.findByName thingClass.stateTypes d.interfaceState
      let state := device.state stateType.id
      let temporaryDescriptor :=
        StateDescriptor.byThing stateType.id device.id d.stateValue d.operatorType
      if temporaryDescriptor.matchesState state then true
      else interfaceMatching tm d rest
    else interfaceMatching tm d rest

/-- The match of a valid descriptor against the registry in `evaluate`
(lines 119-153): for a by-thing descriptor, whether the thing exists, has the
state and the state matches; for a by-interface descriptor, whether some
configured thing matches. -/
def descriptorMatches (tm : ThingManager) (d : StateDescriptor) : Bool :=
  if d.type == .TypeDevice then
    match tm.findConfiguredThing d.thingId with
    | some device =>
      if device.hasState d.stateTypeId then
        d.matchesState (device.state d.stateTypeId)
      else false
    | none => false
  else interfaceMatching tm d tm.configuredThings

/-- The local `descriptorMatching` of `evaluate` (lines 117-154): true for a
descriptor that is not valid, otherwise whether it matches the registry. -/
def descriptorMatching (tm : ThingManager) (d : StateDescriptor) : Bool :=
  if d.isValid then descriptorMatches tm d else true

mutual
/-- `StateEvaluator::evaluate`. -/
def evaluate (tm : ThingManager) : StateEvaluator → Bool
  | .mk m_stateDescriptor m_childEvaluators m_operatorType =>
    let descriptorMatching := descriptorMatching tm m_stateDescriptor
    if m_operatorType == .StateOperatorOr then
      if m_stateDescriptor.isValid && descriptorMatching then true
      else evaluateAny tm m_childEvaluators
    else if !descriptorMatching then false
    else evaluateAll tm m_childEvaluators
/-- The loop of `evaluate` for OR (lines 161-168): true at the first child
that evaluates true, false when none does. -/
def evaluateAny (tm : ThingManager) : List StateEvaluator → Bool
  | [] => false
  | stateEvaluator :: rest =>
    if evaluate tm stateEvaluator then true else evaluateAny tm rest
/-- The loop of `evaluate` for AND (lines 176-183): false at the first child
that evaluates false, true when none does. -/
def evaluateAll (tm : ThingManager) : List StateEvaluator → Bool
  | [] => true
  | stateEvaluator :: rest =>
    if !evaluate tm stateEvaluator then false else evaluateAll tm rest
end

mutual
/-- `StateEvaluator::containsThing`. -/
def containsThing (thingId : ThingId) : StateEvaluator → Bool
  | .mk m_stateDescriptor m_childEvaluators _ =>
    if m_stateDescriptor.thingId == thingId then true
    else containsThingAny thingId m_childEvaluators
/-- The loop of `containsThing` over the children (lines 192-197). -/
def containsThingAny (thingId : ThingId) : List StateEvaluator → Bool
  | [] => false
  | childEvaluator :: rest =>
    if containsThing thingId childEvaluator then true else containsThingAny thingId rest
end

mutual
/-- `StateEvaluator::removeThing`, returning the evaluator after the call. -/
def removeThing (thingId : ThingId) : StateEvaluator → StateEvaluator
  | .mk m_stateDescriptor m_childEvaluators m_operatorType =>
    .mk (if m_stateDescriptor.thingId == thingId then StateDescriptor.empty
         else m_stateDescriptor)
      (removeThingEach thingId m_childEvaluators) m_operatorType
/-- The loop of `removeThing` over the children (lines 206-208), each child
updated in place. -/
def removeThingEach (thingId : ThingId) : List StateEvaluator → List StateEvaluator
  | [] => []
  | childEvaluator :: rest =>
    removeThing thingId childEvaluator :: removeThingEach thingId rest
end

mutual
/-- `StateEvaluator::containedThings`. -/
def containedThings : StateEvaluator → List ThingId
  | .mk m_stateDescriptor m_childEvaluators _ =>
    (if !m_stateDescriptor.thingId.isNull then [m_stateDescriptor.thingId] else [])
      ++ containedThingsEach m_childEvaluators
/-- The loop of `containedThings` over the children (lines 218-220). -/
def containedThingsEach : List StateEvaluator → List ThingId
  | [] => []
  | childEvaluator :: rest => containedThings childEvaluator ++ containedThingsEach rest
end

/-- The loop of `isValid` over the state types of the thing's class (lines
316-345): for each state type with the descriptor's state type id, the
target value must convert to the declared type, not exceed a declared
maximum, not fall below a declared minimum and be among the possible values
when there are any. -/
def stateTypesAccept (d : StateDescriptor) : List StateType → Bool
  | [] => true
  | stateType :: rest =>
    if stateType.id == d.stateTypeId then
      match d.stateValue.convert stateType.type with
      | none => false
      | some stateValue =>
        if stateType.maxValue.isValid && stateValue.greaterThan stateType.maxValue then false
        else if stateType.minValue.isValid && stateValue.lessThan stateType.minValue then false
        else if !stateType.possibleValues.isEmpty
            && !stateType.possibleValues.any (fun v => v.equals stateValue) then false
        else stateTypesAccept d rest
    else stateTypesAccept d rest

/-- The descriptor part of `isValid` (lines 302-357): false where `isValid`
returns false before looking at the children, true where it goes on. -/
def descriptorAccepted (tm : ThingManager) (d : StateDescriptor) : Bool :=
  if d.isValid then
    if d.type == .TypeDevice then
      match tm.findConfiguredThing d.thingId with
      | none => false
      | some thing =>
        if !thing.hasState d.stateTypeId then false
        else
          let thingClass := tm.findThingClass thing.thingClassId
          stateTypesAccept d thingClass.stateTypes
    else
      let iface := Interface.findByName tm.supportedInterfaces d.interface
      if !iface.isValid then false
      else if (InterfaceStateType.findByName iface.stateTypes d.interfaceState).name.isEmpty
        then false
      else true
  else true

mutual
/-- `StateEvaluator::isValid`. -/
def isValid (tm : ThingManager) : StateEvaluator → Bool
  | .mk m_stateDescriptor m_childEvaluators m_operatorType =>
    if !descriptorAccepted tm m_stateDescriptor then false
    else if m_operatorType == .StateOperatorOr then isValidAny tm m_childEvaluators
    else isValidAll tm m_childEvaluators
/-- The loop of `isValid` for OR (lines 360-365). -/
def isValidAny (tm : ThingManager) : List StateEvaluator → Bool
  | [] => false
  | stateEvaluator :: rest =>
    if isValid tm stateEvaluator then true else isValidAny tm rest
/-- The loop of `isValid` for AND (lines 368-373). -/
def isValidAll (tm : ThingManager) : List StateEvaluator → Bool
  | [] => true
  | stateEvaluator :: rest =>
    if !isValid tm stateEvaluator then false else isValidAll tm rest
end

/-- `StateEvaluator::isEmpty`. -/
def isEmpty : StateEvaluator → Bool
  | .mk m_stateDescriptor m_childEvaluators _ =>
    !m_stateDescriptor.isValid && m_childEvaluators.isEmpty

end StateEvaluator

/-! ## The parts of a tree -/

/-- The combinators of a tree without its descriptors: one node per
evaluator, with its operator and its children in list order. -/
inductive Shape where
  | node (operatorType : StateOperator) (children : List Shape)

namespace StateEvaluator

mutual
/-- The shape of an evaluator: its tree with the descriptors left out. -/
def shape : StateEvaluator → Shape
  | .mk _ m_childEvaluators m_operatorType =>
    .node m_operatorType (shapeEach m_childEvaluators)
/-- The shapes of a list of evaluators, in order. -/
def shapeEach : List StateEvaluator → List Shape
  | [] => []
  | childEvaluator :: rest => shape childEvaluator :: shapeEach rest
end

mutual
/-- The descriptors of a tree in pre-order: the node first, then the
children in list order. -/
def descriptors : StateEvaluator → List StateDescriptor
  | .mk m_stateDescriptor m_childEvaluators _ =>
    m_stateDescriptor :: descriptorsEach m_childEvaluators
/-- The descriptors of a list of evaluators, in order. -/
def descriptorsEach : List StateEvaluator → List StateDescriptor
  | [] => []
  | childEvaluator :: rest => descriptors childEvaluator ++ descriptorsEach rest
end

mutual
/-- The combinators of a tree in pre-order. -/
def operators : StateEvaluator → List StateOperator
  | .mk _ m_childEvaluators m_operatorType =>
    m_operatorType :: operatorsEach m_childEvaluators
/-- The combinators of a list of evaluators, in order. -/
def operatorsEach : List StateEvaluator → List StateOperator
  | [] => []
  | childEvaluator :: rest => operators childEvaluator ++ operatorsEach rest
end

end StateEvaluator

/-- The by-thing reference of a descriptor does not resolve in the
registry: no configured thing has the descriptor's thing id, or the thing
found does not have the descriptor's state type. -/
def StateDescriptor.unresolved (tm : ThingManager) (d : StateDescriptor) : Bool :=
  match tm.findConfiguredThing d.thingId with
  | none => true
  | some thing => !thing.hasState d.stateTypeId

/-- The target value `value` is acceptable for the state type: it converts
to the declared type, and the converted value is not above a declared
maximum, not below a declared minimum, and among the possible values when
the state type lists any. -/
def valueAccepted (value : QVariant) (stateType : StateType) : Prop :=
  ∃ converted, value.convert stateType.type = some converted
    ∧ ¬ (stateType.maxValue.isValid = true
          ∧ converted.greaterThan stateType.maxValue = true)
    ∧ ¬ (stateType.minValue.isValid = true
          ∧ converted.lessThan stateType.minValue = true)
    ∧ (stateType.possibleValues ≠ []
          → ∃ p ∈ stateType.possibleValues, p.equals converted = true)

/-! ## Registry invariants -/

/-- The registry keeps the states of its things consistent: every configured
thing has a non-null id, and each of its states has a non-null state type
id and carries the id of the thing. -/
def ThingManager.statesConsistent (tm : ThingManager) : Bool :=
  tm.configuredThings.all (fun t =>
    !t.id.isNull && t.states.all (fun s => !s.stateTypeId.isNull && s.thingId == t.id))

/-- The thing `t` of registry `tm` satisfies the by-interface descriptor `d`:
its class is known and declares the interface, the class has a state type
of the descriptor's state name, and the thing's current value of that state
compares as the descriptor asks. -/
def thingSatisfies (tm : ThingManager) (d : StateDescriptor) (t : Thing) : Prop :=
  (tm.findThingClass t.thingClassId).isValid = true
    ∧ d.interface ∈ (tm.findThingClass t.thingClassId).interfaces
    ∧ ∃ st s,
        (tm.findThingClass t.thingClassId).stateTypes.find? (fun x => x.name == d.interfaceState)
            = some st
          ∧ t.states.find? (fun x => x.stateTypeId == st.id) = some s
          ∧ compare s.value d.operatorType d.stateValue = true

/-! ## Example registries and evaluators -/

/-- A registry with no things, classes or interfaces. -/
def emptyRegistry : ThingManager :=
  { configuredThings := [], thingClasses := [], supportedInterfaces := [] }

/-- A thing class declaring the interface `Light` with a bool state `on`. -/
def lightClass : ThingClass :=
  { id := 7, interfaces := ["Light"],
    stateTypes := [{ id := 11, name := "on", type := .Bool, minValue := .invalid,
                     maxValue := .invalid, possibleValues := [] }] }

/-- A light with the given id whose `on` state has the given value. -/
def light (id : ThingId) (isOn : Bool) : Thing :=
  { id := id, thingClassId := 7,
    states := [{ stateTypeId := 11, thingId := id, value := .bool isOn }] }

/-- A registry of three lights with the given `on` states. -/
def lights (a b c : Bool) : ThingManager :=
  { configuredThings := [light 1 a, light 2 b, light 3 c], thingClasses := [lightClass],
    supportedInterfaces := [{ name := "Light", stateTypes := [{ name := "on" }] }] }

/-- The descriptor `(Light, on, Equals, true)`. -/
def lightOnDescriptor : StateDescriptor :=
  StateDescriptor.byInterface "Light" "on" (.bool true) .ValueOperatorEquals

/-- A registry with one dimmer, thing 5, whose int state `brightness` (state
type 21, between 0 and 100) is currently 50. -/
def dimmerRegistry : ThingManager :=
  { configuredThings :=
      [{ id := 5, thingClassId := 8,
         states := [{ stateTypeId := 21, thingId := 5, value := .int 50 }] }],
    thingClasses :=
      [{ id := 8, interfaces := ["dimmablelight"],
         stateTypes := [{ id := 21, name := "brightness", type := .Int, minValue := .int 0,
                          maxValue := .int 100, possibleValues := [] }] }],
    supportedInterfaces :=
      [{ name := "dimmablelight", stateTypes := [{ name := "brightness" }] }] }

/-- A tree naming thing 3 twice: an OR root asking thing 3 for `on`, over a
leaf for `(Light, on, Equals, true)`, a leaf for thing 2 and an AND node
that asks thing 3 again and has an unset leaf below it. -/
def removalTree : StateEvaluator :=
  .mk (StateDescriptor.byThing 11 3 (.bool true) .ValueOperatorEquals)
    [.mk lightOnDescriptor [] .StateOperatorAnd,
     .mk (StateDescriptor.byThing 11 2 (.bool false) .ValueOperatorEquals) []
       .StateOperatorAnd,
     .mk (StateDescriptor.byThing 11 3 (.bool false) .ValueOperatorNotEquals)
       [.mk StateDescriptor.empty [] .StateOperatorOr] .StateOperatorAnd]
    .StateOperatorOr

/-- An AND tree: an unset root over a leaf for `(Light, on, Equals, true)`
and an inner AND node whose only child is a leaf for thing 99. -/
def unresolvedTree : StateEvaluator :=
  .mk StateDescriptor.empty
    [.mk lightOnDescriptor [] .StateOperatorAnd,
     .mk StateDescriptor.empty
       [.mk (StateDescriptor.byThing 11 99 (.bool true) .ValueOperatorEquals) []
          .StateOperatorAnd]
       .StateOperatorAnd]
    .StateOperatorAnd

/-! ## Rule and its activation (section 4.4 of the specification) -/

abbrev RuleId := QUuid
abbrev ActionTypeId := QUuid

/-- Modelled from the spec: a `RuleAction` (not among the sources), the
action type and the thing it is sent to. -/
structure RuleAction where
  actionTypeId : ActionTypeId
  thingId : ThingId
  deriving DecidableEq, Repr

/-- Modelled from the spec: the `Rule` of the data model (not among the
sources): id, name, enablement flag, condition tree, actions, exit actions
and the latched `active` flag. -/
structure Rule where
  id : RuleId
  name : String
  enabled : Bool
  stateEvaluator : StateEvaluator
  actions : List RuleAction
  exitActions : List RuleAction
  active : Bool

/-- What one run of the transition function does towards its collaborators:
it fires the actions, fires the exit actions, or notifies that `active`
changed. -/
inductive RuleEffect where
  | ActionsFired (ruleId : RuleId) (actions : List RuleAction)
  | ExitActionsFired (ruleId : RuleId) (exitActions : List RuleAction)
  | ActiveChanged (ruleId : RuleId) (active : Bool)
  deriving DecidableEq, Repr

/-- Modelled from the spec: the transition function of section 4.4, which is
not among the sources.  `satisfied` is `enabled && evaluate(registry)`; an
inactive rule that is satisfied becomes active, fires its actions and emits
active-changed(true); an active rule that is not satisfied becomes inactive,
fires its exit actions and emits active-changed(false); otherwise nothing
changes and nothing is fired. -/
def Rule.transition (tm : ThingManager) (rule : Rule) : Rule × List RuleEffect :=
  let satisfied := rule.enabled && rule.stateEvaluator.evaluate tm
  if rule.active == false && satisfied == true then
    ({ rule with active := true },
      [.ActionsFired rule.id rule.actions, .ActiveChanged rule.id true])
  else if rule.active == true && satisfied == false then
    ({ rule with active := false },
      [.ExitActionsFired rule.id rule.exitActions, .ActiveChanged rule.id false])
  else (rule, [])

/-- Modelled from the spec: the events of a sequence handled one at a time
in arrival order (section 5), each with the registry as it is when the event
arrives; the result is the rule after the last event and the effects of
each event. -/
def Rule.run (rule : Rule) : List ThingManager → Rule × List (List RuleEffect)
  | [] => (rule, [])
  | tm :: rest =>
    let step := rule.transition tm
    let later := Rule.run step.1 rest
    (later.1, step.2 :: later.2)

/-- Whether an effect is the firing of the rule's actions. -/
def RuleEffect.isActionsFired : RuleEffect → Bool
  | .ActionsFired _ _ => true
  | _ => false

/-- An enabled, inactive rule whose condition is `(Light, on, Equals, true)`
and whose single action goes to thing 5. -/
def lightRule : Rule :=
  { id := 40, name := "a light is on", enabled := true,
    stateEvaluator := .mk lightOnDescriptor [] .StateOperatorAnd,
    actions := [{ actionTypeId := 41, thingId := 5 }], exitActions := [], active := false }

end nymeaserver

/-! ## Param and ParamList (libnymea/types/param.cpp) -/

open nymeaserver in
/-- The members of a `Param`: `m_paramTypeId` and `m_value`. -/
structure Param where
  m_paramTypeId : QUuid
  m_value : QVariant
  deriving DecidableEq, Repr

namespace Param

/-- `Param::paramTypeId`. -/
def paramTypeId (p : Param) : nymeaserver.QUuid := p.m_paramTypeId

/-- `Param::value`. -/
def value (p : Param) : nymeaserver.QVariant := p.m_value

/-- `Param::setValue`, returning the param after the call. -/
def setValue (p : Param) (value : nymeaserver.QVariant) : Param :=
  { p with m_value := value }

/-- `Param::isValid`. -/
def isValid (p : Param) : Bool :=
  !p.m_paramTypeId.isNull && p.m_value.isValid

end Param

/-- A `ParamList`, the `QList<Param>` it derives from. -/
abbrev ParamList := List Param

namespace ParamList

open nymeaserver

/-- `ParamList::hasParam`. -/
def hasParam : ParamList → QUuid → Bool
  | [], _ => false
  | param :: rest, paramTypeId =>
    if param.paramTypeId == paramTypeId then true else hasParam rest paramTypeId

/-- `ParamList::paramValue`. -/
def paramValue : ParamList → QUuid → QVariant
  | [], _ => QVariant.invalid
  | param :: rest, paramTypeId =>
    if param.paramTypeId == paramTypeId then param.value else paramValue rest paramTypeId

/-- `ParamList::setParamValue`, returning the result of the call and the
list after it. -/
def setParamValue : ParamList → QUuid → QVariant → Bool × ParamList
  | [], _, _ => (false, [])
  | param :: rest, paramTypeId, value =>
    if param.paramTypeId == paramTypeId then (true, param.setValue value :: rest)
    else
      let later := setParamValue rest paramTypeId value
      (later.1, param :: later.2)

end ParamList

/-! ## LogEngine (libguh-core/logging/logengine.cpp) -/

namespace guhserver

open nymeaserver

namespace Logging

/-- `Logging::LoggingEventType`. -/
inductive LoggingEventType where
  | LoggingEventTypeTrigger
  | LoggingEventTypeActiveChange
  | LoggingEventTypeEnabledChange
  | LoggingEventTypeActionsExecuted
  | LoggingEventTypeExitActionsExecuted
  deriving DecidableEq, Repr

/-- `Logging::LoggingLevel`. -/
inductive LoggingLevel where
  | LoggingLevelInfo
  | LoggingLevelAlert
  deriving DecidableEq, Repr

/-- `Logging::LoggingSource`. -/
inductive LoggingSource where
  | LoggingSourceSystem
  | LoggingSourceEvents
  | LoggingSourceActions
  | LoggingSourceStates
  | LoggingSourceRules
  deriving DecidableEq, Repr

end Logging

open Logging

/-- Modelled from the spec: a `LogEntry` (logentry.cpp is not among the
sources), with the columns `appendLogEntry` writes: timestamp (seconds),
event type, level, source, type id, device id, value, active, error code. -/
structure LogEntry where
  timestamp : Nat
  eventType : LoggingEventType
  level : LoggingLevel
  source : LoggingSource
  typeId : QUuid
  deviceId : QUuid
  value : QVariant
  active : Bool
  errorCode : Int
  deriving DecidableEq, Repr

namespace LogEntry

/-- Modelled from the spec: the constructor `LogEntry(source)`: an entry of
level info with the current time `now`, the given source, no ids, no value,
event type trigger, not active, error code 0. -/
def ofSource (now : Nat) (source : LoggingSource) : LogEntry :=
  { timestamp := now, eventType := .LoggingEventTypeTrigger, level := .LoggingLevelInfo,
    source := source, typeId := 0, deviceId := 0, value := .invalid, active := false,
    errorCode := 0 }

/-- Modelled from the spec: `LogEntry::setTypeId`. -/
def setTypeId (entry : LogEntry) (typeId : QUuid) : LogEntry :=
  { entry with typeId := typeId }

/-- Modelled from the spec: `LogEntry::setEventType`. -/
def setEventType (entry : LogEntry) (eventType : LoggingEventType) : LogEntry :=
  { entry with eventType := eventType }

/-- Modelled from the spec: `LogEntry::setActive`. -/
def setActive (entry : LogEntry) (active : Bool) : LogEntry :=
  { entry with active := active }

end LogEntry

/-- The members of the `LogEngine` that the constructor and `appendLogEntry`
use: the size limits, the entry count, the housekeeping timer (started or
not), and the rows of the `entries` table in insertion order. -/
structure LogEngine where
  m_dbMaxSize : Int
  m_overflow : Int
  m_entryCount : Int
  housekeepingTimerStarted : Bool
  entries : List LogEntry
  deriving DecidableEq, Repr

namespace LogEngine

/-- The constructor `LogEngine::LogEngine` up to line 146, for an
application with the given organization name and a table that holds
`entries`: the default limits, and the smaller limit of the test
organization.  The entry count is not yet read from the table (that is done
by `checkDBSize`, which the constructor calls last and which is not part of
this model). -/
def create (organizationName : String) (entries : List LogEntry) : LogEngine :=
  let m_dbMaxSize : Int := 50000
  let m_overflow : Int := 100
  let m_dbMaxSize : Int := if organizationName == "guh-test" then 20 else m_dbMaxSize
  { m_dbMaxSize := m_dbMaxSize, m_overflow := m_overflow, m_entryCount := 0,
    housekeepingTimerStarted := false, entries := entries }

/-- `LogEngine::appendLogEntry`: when the insert fails (`insertOk` false)
nothing changes; otherwise the row is added, the entry count goes up by one
and the housekeeping timer is started once the count exceeds
`m_dbMaxSize + m_overflow`. -/
def appendLogEntry (engine : LogEngine) (insertOk : Bool) (entry : LogEntry) : LogEngine :=
  if !insertOk then engine
  else
    let m_entryCount := engine.m_entryCount + 1
    { engine with
      entries := engine.entries ++ [entry]
      m_entryCount := m_entryCount
      housekeepingTimerStarted :=
        if m_entryCount > engine.m_dbMaxSize + engine.m_overflow then true
        else engine.housekeepingTimerStarted }

/-- The entry built by `LogEngine::logRuleTriggered` (lines 301-303). -/
def ruleTriggeredEntry (now : Nat) (rule : Rule) : LogEntry :=
  let entry := LogEntry.ofSource now .LoggingSourceRules
  let entry := entry.setTypeId rule.id
  entry.setEventType .LoggingEventTypeTrigger

/-- The entry built by `LogEngine::logRuleActiveChanged` (lines 309-312). -/
def ruleActiveChangedEntry (now : Nat) (rule : Rule) : LogEntry :=
  let entry := LogEntry.ofSource now .LoggingSourceRules
  let entry := entry.setTypeId rule.id
  let entry := entry.setActive rule.active
  entry.setEventType .LoggingEventTypeActiveChange

/-- The entry built by `LogEngine::logRuleEnabledChanged` (lines 318-321). -/
def ruleEnabledChangedEntry (now : Nat) (rule : Rule) (enabled : Bool) : LogEntry :=
  let entry := LogEntry.ofSource now .LoggingSourceRules
  let entry := entry.setTypeId rule.id
  let entry := entry.setEventType .LoggingEventTypeEnabledChange
  entry.setActive enabled

/-- The entry built by `LogEngine::logRuleActionsExecuted` (lines 327-329). -/
def ruleActionsExecutedEntry (now : Nat) (rule : Rule) : LogEntry :=
  let entry := LogEntry.ofSource now .LoggingSourceRules
  let entry := entry.setTypeId rule.id
  entry.setEventType .LoggingEventTypeActionsExecuted

/-- The entry built by `LogEngine::logRuleExitActionsExecuted` (lines
335-337). -/
def ruleExitActionsExecutedEntry (now : Nat) (rule : Rule) : LogEntry :=
  let entry := LogEntry.ofSource now .LoggingSourceRules
  let entry := entry.setTypeId rule.id
  entry.setEventType .LoggingEventTypeExitActionsExecuted

/-- `LogEngine::logRuleTriggered`. -/
def logRuleTriggered (engine : LogEngine) (now : Nat) (insertOk : Bool) (rule : Rule) :
    LogEngine :=
  engine.appendLogEntry insertOk (ruleTriggeredEntry now rule)

/-- `LogEngine::logRuleActiveChanged`. -/
def logRuleActiveChanged (engine : LogEngine) (now : Nat) (insertOk : Bool) (rule : Rule) :
    LogEngine :=
  engine.appendLogEntry insertOk (ruleActiveChangedEntry now rule)

/-- `LogEngine::logRuleEnabledChanged`. -/
def logRuleEnabledChanged (engine : LogEngine) (now : Nat) (insertOk : Bool) (rule : Rule)
    (enabled : Bool) : LogEngine :=
  engine.appendLogEntry insertOk (ruleEnabledChangedEntry now rule enabled)

/-- `LogEngine::logRuleActionsExecuted`. -/
def logRuleActionsExecuted (engine : LogEngine) (now : Nat) (insertOk : Bool) (rule : Rule) :
    LogEngine :=
  engine.appendLogEntry insertOk (ruleActionsExecutedEntry now rule)

/-- `LogEngine::logRuleExitActionsExecuted`. -/
def logRuleExitActionsExecuted (engine : LogEngine) (now : Nat) (insertOk : Bool)
    (rule : Rule) : LogEngine :=
  engine.appendLogEntry insertOk (ruleExitActionsExecutedEntry now rule)

end LogEngine

end guhserver

/-! ## Wake on LAN (plugins/deviceplugins/wakeonlan/devicepluginwakeonlan.cpp) -/

namespace DevicePluginWakeOnLan

/-- `QString::remove(QChar)` of Qt: the string without the occurrences of
the character (the call changes the string in place and returns it). -/
def remove (s : String) (ch : Char) : String :=
  ⟨s.data.filter (fun c => c != ch)⟩

/-- The bytes of one character in `QString::toLocal8Bit`: an ASCII character
is its own code, any other character is encoded in UTF-8 (the local
encoding on the supported platforms). -/
def localBytes (c : Char) : List Nat :=
  if c.toNat < 128 then [c.toNat] else (String.utf8EncodeChar c).map UInt8.toNat

/-- `QString::toLocal8Bit` of Qt, as a list of bytes. -/
def toLocal8Bit (s : String) : List Nat :=
  s.data.flatMap localBytes

/-- `QtMiscUtils::fromHex` of Qt: the value of a hexadecimal digit given by
its character code, `none` for the -1 returned for any other character. -/
def fromHexDigit (c : Nat) : Option Nat :=
  if 48 ≤ c ∧ c ≤ 57 then some (c - 48)
  else if 65 ≤ c ∧ c ≤ 70 then some (c - 65 + 10)
  else if 97 ≤ c ∧ c ≤ 102 then some (c - 97 + 10)
  else none

/-- The loop of `QByteArray::fromHex` of Qt, which reads the input from its
last byte to its first (here: the reversed input), skips every byte that is
not a hexadecimal digit, and fills the result from its end: a first digit
starts a new byte with the low nibble, the next digit sets its high nibble.
`odd_digit` is the flag of the Qt loop and `result` the bytes written so
far. -/
def fromHexLoop : List Nat → Bool → List Nat → List Nat
  | [], _, result => result
  | ch :: rest, odd_digit, result =>
    match fromHexDigit ch with
    | none => fromHexLoop rest odd_digit result
    | some tmp =>
      if odd_digit then fromHexLoop rest false (tmp :: result)
      else
        match result with
        | last :: written => fromHexLoop rest true ((last ||| (tmp <<< 4)) :: written)
        | [] => fromHexLoop rest true []

/-- `QByteArray::fromHex` of Qt. -/
def fromHex (hexEncoded : List Nat) : List Nat :=
  fromHexLoop hexEncoded.reverse true []

/-- The loop of `wakeup` (lines 79-81), `n` rounds of it: each round removes
the colons from `mac` in place and appends the bytes decoded from it to the
packet. -/
def wakeupLoop : Nat → String → List Nat → String × List Nat
  | 0, mac, packet => (mac, packet)
  | n + 1, mac, packet =>
    let mac := remove mac ':'
    let packet := packet ++ fromHex (toLocal8Bit mac)
    wakeupLoop n mac packet

/-- `DevicePluginWakeOnLan::wakeup`: the packet handed to
`writeDatagram`. -/
def wakeup (mac : String) : List Nat :=
  let header : List Nat := [0xff, 0xff, 0xff, 0xff, 0xff, 0xff]
  let packet := header
  (wakeupLoop 16 mac packet).2

/-- The characters of a MAC address written as two-digit octets separated
by colons. -/
def macChars : List (Char × Char) → List Char
  | [] => []
  | [octet] => [octet.1, octet.2]
  | octet :: next :: rest => octet.1 :: octet.2 :: ':' :: macChars (next :: rest)

/-- The MAC address string of the given octets, each a pair of digits. -/
def macAddress (octets : List (Char × Char)) : String :=
  ⟨macChars octets⟩

/-- The character is a hexadecimal digit. -/
def isHexDigit (c : Char) : Bool :=
  (fromHexDigit c.toNat).isSome

/-- The value of a hexadecimal digit character, 0 for any other. -/
def hexValue (c : Char) : Nat :=
  (fromHexDigit c.toNat).getD 0

/-- The byte an octet of two hexadecimal digits stands for. -/
def octetByte (octet : Char × Char) : Nat :=
  16 * hexValue octet.1 + hexValue octet.2

end DevicePluginWakeOnLan

/-! ## NymeaSettings and the persistence of a StateEvaluator -/

namespace nymeaserver

open Types

/-- The order of `QString` keys in the `QMap` behind `QSettings`: the
lexicographic order of the character codes. -/
def keyLess : List Char → List Char → Bool
  | _, [] => false
  | [], _ :: _ => true
  | a :: as, b :: bs =>
    if a.toNat < b.toNat then true
    else if b.toNat < a.toNat then false
    else keyLess as bs

/-- A group of settings: its name, the values stored directly in it, by
key, and the groups below it.  `QSettings` stores full keys, the group
names and the key joined by slashes, in a `QMap`; the groups below a group
are kept here in the order their full keys have there, which is the order
of the names followed by a slash. -/
inductive SettingsGroup where
  | mk (name : String) (values : List (String × QVariant)) (groups : List SettingsGroup)

namespace SettingsGroup

/-- The name of a group. -/
def name : SettingsGroup → String
  | .mk name _ _ => name

/-- The values stored directly in a group. -/
def values : SettingsGroup → List (String × QVariant)
  | .mk _ values _ => values

/-- The groups directly below a group. -/
def groups : SettingsGroup → List SettingsGroup
  | .mk _ _ groups => groups

/-- The order of two groups of the same parent in the `QMap` of full keys:
every key of a group starts with the name of the group and a slash. -/
def groupLess (a b : String) : Bool :=
  keyLess (a.data ++ ['/']) (b.data ++ ['/'])

/-- The group of the given name among the groups of a parent, if any. -/
def child (groupName : String) : List SettingsGroup → Option SettingsGroup
  | [] => none
  | group :: rest => if group.name == groupName then some group else child groupName rest

/-- The groups of a parent after a change `f` to the group of the given
name, which is created in its place in the order when it is not there. -/
def updateChild (groupName : String) (f : SettingsGroup → SettingsGroup) :
    List SettingsGroup → List SettingsGroup
  | [] => [f (.mk groupName [] [])]
  | group :: rest =>
    if group.name == groupName then f group :: rest
    else if groupLess groupName group.name then f (.mk groupName [] []) :: group :: rest
    else group :: updateChild groupName f rest

/-- The values of a group after storing `value` under `key`: the value of a
key that is already there is replaced. -/
def setKey (key : String) (value : QVariant) :
    List (String × QVariant) → List (String × QVariant)
  | [] => [(key, value)]
  | (k, v) :: rest =>
    if k == key then (key, value) :: rest
    else if keyLess key.data k.data then (key, value) :: (k, v) :: rest
    else (k, v) :: setKey key value rest

/-- The value stored under a key among the values of a group, if any. -/
def lookup (key : String) : List (String × QVariant) → Option QVariant
  | [] => none
  | (k, v) :: rest => if k == key then some v else lookup key rest

/-- The settings after storing `value` under `key` in the group reached
from `group` by the path of group names. -/
def setAt : List String → String → QVariant → SettingsGroup → SettingsGroup
  | [], key, value, .mk name values groups => .mk name (setKey key value values) groups
  | groupName :: path, key, value, .mk name values groups =>
    .mk name values (updateChild groupName (setAt path key value) groups)

/-- The group reached from `group` by the path of group names, if there is
one. -/
def groupAt : List String → SettingsGroup → Option SettingsGroup
  | [], group => some group
  | groupName :: path, .mk _ _ groups =>
    match child groupName groups with
    | some group => groupAt path group
    | none => none

end SettingsGroup

/-- Modelled from the spec: the key/group store `NymeaSettings` (a wrapper
of `QSettings`, not among the sources): the stored settings, and the names
of the groups begun and not yet ended.  Keys and group names are the plain
names the StateEvaluator uses, without slashes. -/
structure NymeaSettings where
  root : SettingsGroup
  groupStack : List String

namespace NymeaSettings

/-- Settings without keys, at the top level. -/
def empty : NymeaSettings :=
  { root := .mk "" [] [], groupStack := [] }

/-- Modelled from the spec: `beginGroup`, which makes the group of that name
below the current group the current one. -/
def beginGroup (settings : NymeaSettings) (groupName : String) : NymeaSettings :=
  { settings with groupStack := settings.groupStack ++ [groupName] }

/-- Modelled from the spec: `endGroup`, which makes the group that was
current before the matching `beginGroup` current again. -/
def endGroup (settings : NymeaSettings) : NymeaSettings :=
  { settings with groupStack := settings.groupStack.dropLast }

/-- Modelled from the spec: `setValue`, which stores the value under the
key in the current group. -/
def setValue (settings : NymeaSettings) (key : String) (value : QVariant) : NymeaSettings :=
  { settings with root := settings.root.setAt settings.groupStack key value }

/-- Modelled from the spec: `value`, the value stored under the key in the
current group, the invalid `QVariant` when there is none. -/
def value (settings : NymeaSettings) (key : String) : QVariant :=
  match settings.root.groupAt settings.groupStack with
  | some group => (SettingsGroup.lookup key group.values).getD .invalid
  | none => .invalid

/-- Modelled from the spec: `contains`, whether the key is stored in the
current group. -/
def contains (settings : NymeaSettings) (key : String) : Bool :=
  match settings.root.groupAt settings.groupStack with
  | some group => (SettingsGroup.lookup key group.values).isSome
  | none => false

/-- Modelled from the spec: `childGroups`, the names of the groups directly
below the current group, which `QSettings` lists in the order of its
keys. -/
def childGroups (settings : NymeaSettings) : List String :=
  match settings.root.groupAt settings.groupStack with
  | some group => group.groups.map SettingsGroup.name
  | none => []

end NymeaSettings

/-- One hexadecimal digit of `QUuid::toString`, in lower case. -/
def hexDigitChar (v : Nat) : Char :=
  if v < 10 then Char.ofNat (48 + v) else Char.ofNat (87 + v)

/-- The hexadecimal digits `from`, `from + 1`, ..., of the 32 digits of a
uuid, the digit 0 being the most significant. -/
def uuidDigits (id : QUuid) (first count : Nat) : List Char :=
  (List.range count).map (fun i => hexDigitChar (id / 16 ^ (31 - (first + i)) % 16))

/-- `QUuid::toString` of Qt: the 32 hexadecimal digits in five groups,
separated by dashes and enclosed in braces. -/
def QUuid.toString (id : QUuid) : String :=
  ⟨['{'] ++ uuidDigits id 0 8 ++ ['-'] ++ uuidDigits id 8 4 ++ ['-'] ++ uuidDigits id 12 4
    ++ ['-'] ++ uuidDigits id 16 4 ++ ['-'] ++ uuidDigits id 20 12 ++ ['}']⟩

/-- The value of a hexadecimal digit character, if it is one. -/
def hexCharValue (c : Char) : Option Nat :=
  if 48 ≤ c.toNat ∧ c.toNat ≤ 57 then some (c.toNat - 48)
  else if 97 ≤ c.toNat ∧ c.toNat ≤ 102 then some (c.toNat - 87)
  else if 65 ≤ c.toNat ∧ c.toNat ≤ 70 then some (c.toNat - 55)
  else none

/-- The construction of a uuid from a `QString` (`QUuid(const QString &)`
of Qt): the value of the 32 hexadecimal digits of a text with braces and
dashes in their places, the null uuid for any other text. -/
def QUuid.fromString (text : String) : QUuid :=
  let digits := text.data.filterMap hexCharValue
  let layout := text.data.map (fun c => if (hexCharValue c).isSome then 'x' else c)
  if layout == "{xxxxxxxx-xxxx-xxxx-xxxx-xxxxxxxxxxxx}".data then
    digits.foldl (fun acc v => 16 * acc + v) 0
  else 0

/-- `QVariant::toString` of Qt, on the modelled kinds: the empty string
where there is no conversion. -/
def QVariant.toString (v : QVariant) : String :=
  match v.convert .String with
  | some (.string s) => s
  | _ => ""

/-- `QVariant::toInt` of Qt, on the modelled kinds: 0 where there is no
conversion. -/
def QVariant.toInt (v : QVariant) : Int :=
  match v.convert .Int with
  | some (.int i) => i
  | _ => 0

/-- `QVariant::canConvert` of Qt, on the modelled kinds: every valid
variant can be cast to every kind but `Invalid`. -/
def QVariant.canConvert (v : QVariant) (t : QVariantType) : Bool :=
  v.isValid && t != .Invalid

/-- The variant after `QVariant::convert`: the converted value, or the null
value of the requested kind when the conversion fails. -/
def QVariant.converted (v : QVariant) (t : QVariantType) : QVariant :=
  match v.convert t with
  | some c => c
  | none =>
    match t with
    | .Invalid => .invalid
    | .Bool => .bool false
    | .Int => .int 0
    | .String => .string ""

/-- The number of a `QVariant::Type` (the cast `(int)type`). -/
def QVariantType.toInt : QVariantType → ℤ
  | .Invalid => 0
  | .Bool => 1
  | .Int => 2
  | .String => 10

/-- The `QVariant::Type` of a number (the cast `(QVariant::Type)n`); a
number of a kind that is not modelled counts as `Invalid`. -/
def QVariantType.ofInt (n : ℤ) : QVariantType :=
  if n = 1 then .Bool else if n = 2 then .Int else if n = 10 then .String else .Invalid

/-- The number of a `Types::ValueOperator`. -/
def Types.ValueOperator.toInt : ValueOperator → Int
  | .ValueOperatorEquals => 0
  | .ValueOperatorNotEquals => 1
  | .ValueOperatorLess => 2
  | .ValueOperatorGreater => 3
  | .ValueOperatorLessOrEqual => 4
  | .ValueOperatorGreaterOrEqual => 5

/-- The `Types::ValueOperator` of a number (the cast from `int`); a number
that is not one of the enumerators counts as the first. -/
def Types.ValueOperator.ofInt (n : Int) : ValueOperator :=
  if n = 1 then .ValueOperatorNotEquals
  else if n = 2 then .ValueOperatorLess
  else if n = 3 then .ValueOperatorGreater
  else if n = 4 then .ValueOperatorLessOrEqual
  else if n = 5 then .ValueOperatorGreaterOrEqual
  else .ValueOperatorEquals

/-- The number of a `Types::StateOperator`. -/
def Types.StateOperator.toInt : StateOperator → Int
  | .StateOperatorAnd => 0
  | .StateOperatorOr => 1

/-- The `Types::StateOperator` of a number (the cast from `int`); a number
that is not one of the enumerators counts as the first. -/
def Types.StateOperator.ofInt (n : Int) : StateOperator :=
  if n = 1 then .StateOperatorOr else .StateOperatorAnd

namespace StateEvaluator

mutual
/-- `StateEvaluator::dumpToSettings`, returning the settings after the
call. -/
def dumpToSettings (settings : NymeaSettings) (groupName : String) :
    StateEvaluator → NymeaSettings
  | .mk m_stateDescriptor m_childEvaluators m_operatorType =>
    let settings := settings.beginGroup groupName
    let settings := settings.beginGroup "stateDescriptor"
    let settings := settings.setValue "stateTypeId"
      (.string (QUuid.toString m_stateDescriptor.stateTypeId))
    let settings := settings.setValue "thingId"
      (.string (QUuid.toString m_stateDescriptor.thingId))
    let settings := settings.setValue "interface" (.string m_stateDescriptor.interface)
    let settings := settings.setValue "interfaceState"
      (.string m_stateDescriptor.interfaceState)
    let settings := settings.setValue "value" m_stateDescriptor.stateValue
    let settings := settings.setValue "valueType"
      (.int m_stateDescriptor.stateValue.type.toInt)
    let settings := settings.setValue "operator" (.int m_stateDescriptor.operatorType.toInt)
    let settings := settings.endGroup
    let settings := settings.setValue "operator" (.int m_operatorType.toInt)
    let settings := settings.beginGroup "childEvaluators"
    let settings := dumpChildEvaluators settings 0 m_childEvaluators
    let settings := settings.endGroup
    settings.endGroup
/-- The loop of `dumpToSettings` over the children (lines 243-245), from
index `i` on. -/
def dumpChildEvaluators (settings : NymeaSettings) (i : Nat) :
    List StateEvaluator → NymeaSettings
  | [] => settings
  | childEvaluator :: rest =>
    dumpChildEvaluators
      (dumpToSettings settings ("stateEvaluator-" ++ toString i) childEvaluator) (i + 1) rest
end

/-- `StateEvaluator::loadFromSettings`.  The recursion follows the groups of
the settings; `depth` bounds the number of nested evaluator groups that are
read, and `none` is the result when the settings nest deeper. -/
def loadFromSettings : Nat → NymeaSettings → String → Option StateEvaluator
  | 0, _, _ => none
  | depth + 1, settings, groupName =>
    let settings := settings.beginGroup groupName
    let settings := settings.beginGroup "stateDescriptor"
    let stateTypeId := QUuid.fromString (settings.value "stateTypeId").toString
    let thingId := QUuid.fromString (settings.value "thingId").toString
    let thingId :=
      if thingId.isNull then QUuid.fromString (settings.value "deviceId").toString
      else thingId
    let stateValue := settings.value "value"
    let stateValue :=
      if settings.contains "valueType" then
        let valueType := QVariantType.ofInt (settings.value "valueType").toInt
        if valueType == .Invalid then stateValue
        else if !stateValue.canConvert valueType then stateValue
        else stateValue.converted valueType
      else stateValue
    let interface := (settings.value "interface").toString
    let interfaceState := (settings.value "interfaceState").toString
    let valueOperator := ValueOperator.ofInt (settings.value "operator").toInt
    let stateDescriptor :=
      if !thingId.isNull && !stateTypeId.isNull then
        StateDescriptor.byThing stateTypeId thingId stateValue valueOperator
      else StateDescriptor.byInterface interface interfaceState stateValue valueOperator
    let settings := settings.endGroup
    let operatorType := StateOperator.ofInt (settings.value "operator").toInt
    let settings := settings.beginGroup "childEvaluators"
    match settings.childGroups.mapM (fun evaluatorGroup =>
        loadFromSettings depth settings evaluatorGroup) with
    | some childEvaluators => some (.mk stateDescriptor childEvaluators operatorType)
    | none => none

end StateEvaluator

/-- An AND node over eleven leaves, the leaf at index `i` asking thing
`i + 1` for `on` equal to true. -/
def elevenChildren : StateEvaluator :=
  .mk StateDescriptor.empty
    ((List.range 11).map (fun i =>
      .mk (StateDescriptor.byThing 11 (i + 1) (.bool true) .ValueOperatorEquals) []
        .StateOperatorAnd))
    .StateOperatorAnd

end nymeaserver

/-! ## UpnpDiscoveryRequest (libnymea-core/hardware/network/upnp/upnpdiscoveryrequest.cpp) -/

/-- The members of an `UpnpDeviceDescriptor`
(libnymea/network/upnp/upnpdevicedescriptor.cpp), urls and addresses as
text. -/
structure UpnpDeviceDescriptor where
  m_location : String
  m_hostAddress : String
  m_port : Int
  m_deviceType : String
  m_friendlyName : String
  m_manufacturer : String
  m_manufacturerURL : String
  m_modelDescription : String
  m_modelName : String
  m_modelNumber : String
  m_modelURL : String
  m_serialNumber : String
  m_uuid : String
  m_upc : String
  deriving DecidableEq, Repr

/-- `UpnpDeviceDescriptor::uuid`. -/
def UpnpDeviceDescriptor.uuid (d : UpnpDeviceDescriptor) : String := d.m_uuid

namespace guhserver

/-- The members of an `UpnpDiscoveryRequest` that `discover`, `onTimeout`
and `addDeviceDescriptor` use, with what the request has done towards its
collaborators: whether `m_timer` is running, how many times the search
message was handed to `sendToMulticast`, and how many times
`discoveryTimeout` was emitted. -/
structure UpnpDiscoveryRequest where
  m_totalTriggers : Int
  m_triggerCounter : Int
  timerActive : Bool
  sentToMulticast : Nat
  discoveryTimeoutEmitted : Nat
  m_deviceList : List UpnpDeviceDescriptor
  deriving DecidableEq, Repr

namespace UpnpDiscoveryRequest

/-- The request after its constructor: the timer is not running, nothing
was sent, the device list is empty. -/
def create : UpnpDiscoveryRequest :=
  { m_totalTriggers := 0, m_triggerCounter := 0, timerActive := false, sentToMulticast := 0,
    discoveryTimeoutEmitted := 0, m_deviceList := [] }

/-- `UpnpDiscoveryRequest::discover`: the message is sent once, the number
of triggers is `timeout / 500` (the division of C++ `int`, towards zero),
the counter is reset and the timer is started with an interval of 500
ms. -/
def discover (r : UpnpDiscoveryRequest) (timeout : Int) : UpnpDiscoveryRequest :=
  { r with
    sentToMulticast := r.sentToMulticast + 1
    m_totalTriggers := timeout.tdiv 500
    m_triggerCounter := 0
    timerActive := true }

/-- `UpnpDiscoveryRequest::onTimeout`: the message is sent; when the counter
has reached the number of triggers the timer is stopped and
`discoveryTimeout` is emitted, otherwise the counter goes up by one. -/
def onTimeout (r : UpnpDiscoveryRequest) : UpnpDiscoveryRequest :=
  let r := { r with sentToMulticast := r.sentToMulticast + 1 }
  if r.m_triggerCounter ≥ r.m_totalTriggers then
    { r with timerActive := false, discoveryTimeoutEmitted := r.discoveryTimeoutEmitted + 1 }
  else { r with m_triggerCounter := r.m_triggerCounter + 1 }

/-- One period of 500 ms of the timer `m_timer`, which is not single shot
and is connected to `onTimeout`: the slot runs when the timer is running. -/
def timerPeriod (r : UpnpDiscoveryRequest) : UpnpDiscoveryRequest :=
  if r.timerActive then r.onTimeout else r

/-- The request after the given number of periods of 500 ms. -/
def afterPeriods (r : UpnpDiscoveryRequest) : Nat → UpnpDiscoveryRequest
  | 0 => r
  | n + 1 => afterPeriods r.timerPeriod n

/-- The loop of `addDeviceDescriptor` (lines 61-65): whether a descriptor
of the list has the uuid; the loop goes through the whole list. -/
def isAlreadyInList (uuid : String) : List UpnpDeviceDescriptor → Bool → Bool
  | [], found => found
  | upnpDeviceDescriptor :: rest, found =>
    isAlreadyInList uuid rest (if upnpDeviceDescriptor.uuid == uuid then true else found)

/-- `UpnpDiscoveryRequest::addDeviceDescriptor`. -/
def addDeviceDescriptor (r : UpnpDiscoveryRequest) (deviceDescriptor : UpnpDeviceDescriptor) :
    UpnpDiscoveryRequest :=
  if !isAlreadyInList deviceDescriptor.uuid r.m_deviceList false then
    { r with m_deviceList := r.m_deviceList ++ [deviceDescriptor] }
  else r

/-- `UpnpDiscoveryRequest::deviceList`. -/
def deviceList (r : UpnpDiscoveryRequest) : List UpnpDeviceDescriptor := r.m_deviceList

/-- The request after a sequence of `addDeviceDescriptor` calls, in the
order of the calls. -/
def addDeviceDescriptors (r : UpnpDiscoveryRequest) :
    List UpnpDeviceDescriptor → UpnpDiscoveryRequest
  | [] => r
  | deviceDescriptor :: rest => addDeviceDescriptors (r.addDeviceDescriptor deviceDescriptor) rest

end UpnpDiscoveryRequest

end guhserver

/-- The first arrivals of a sequence of device descriptors: the descriptors
of the sequence in order, without every descriptor whose uuid was already
that of an earlier one. -/
def firstArrivals : List UpnpDeviceDescriptor → List UpnpDeviceDescriptor
  | [] => []
  | d :: rest => d :: (firstArrivals rest).filter (fun x => x.uuid != d.uuid)

/-- A device descriptor with the given uuid and friendly name on the given
host, everything else unset. -/
def upnpDevice (uuid friendlyName hostAddress : String) : UpnpDeviceDescriptor :=
  { m_location := "", m_hostAddress := hostAddress, m_port := 1900, m_deviceType := "",
    m_friendlyName := friendlyName, m_manufacturer := "", m_manufacturerURL := "",
    m_modelDescription := "", m_modelName := "", m_modelNumber := "", m_modelURL := "",
    m_serialNumber := "", m_uuid := uuid, m_upc := "" }

/-! ## USB WDE receiver (plugins/deviceplugins/usbwde/devicepluginusbwde.cpp) -/

namespace DevicePluginUsbWde

/-- `QByteArray::split` of Qt on the bytes of the buffer: the parts between
the occurrences of the separator, one part more than there are
separators. -/
def split (sep : Char) : List Char → List (List Char)
  | [] => [[]]
  | c :: rest =>
    if c == sep then [] :: split sep rest
    else
      match split sep rest with
      | part :: parts => (c :: part) :: parts
      | [] => [[c]]

/-- `QByteArray::contains` of Qt: the pattern occurs somewhere in the
bytes. -/
def contains (pattern : List Char) : List Char → Bool
  | [] => pattern.isPrefixOf []
  | c :: rest => pattern.isPrefixOf (c :: rest) || contains pattern rest

/-- The state types the plugin sets (the ids of plugininfo.h, which is not
among the sources, by their names). -/
inductive StateType where
  | temperatureStateTypeId
  | humidityStateTypeId
  | lastUpdateStateTypeId
  | windStrengthStateTypeId
  | rainStrengthStateTypeId
  | isRainStateTypeId
  deriving DecidableEq, Repr

/-- The value handed to `setStateValue`, by the conversion that produces it
and the bytes it is applied to: `german.toDouble(part)`, `part.toInt()`, a
comparison result, or the current time. -/
inductive Value where
  | germanToDouble (part : List Char)
  | toInt (part : List Char)
  | bool (b : Bool)
  | currentTime (now : Nat)
  deriving DecidableEq, Repr

/-- What `guhTimer` does to the sensors: it announces a new sensor for a
channel (`createNewSensor`), or sets a state of the device of a channel. -/
inductive Effect where
  | createNewSensor (channel : Int)
  | setStateValue (channel : Int) (stateTypeId : StateType) (value : Value)
  deriving DecidableEq, Repr

/-- The channel an effect is about. -/
def Effect.channel : Effect → Int
  | .createNewSensor channel => channel
  | .setStateValue channel _ _ => channel

/-- The members of the plugin that `guhTimer` uses: the bytes read so far,
and the channels for which `m_deviceList` holds a device. -/
structure Plugin where
  m_readData : List Char
  m_deviceList : List Int
  deriving DecidableEq, Repr

/-- `QList::at`: the part at the index, `none` for an index out of range
(where Qt asserts). -/
def partAt (parts : List (List Char)) (index : Nat) : Option (List Char) :=
  parts[index]?

/-- The validity check of `guhTimer` (line 89): true when the frame is
rejected. -/
def frameRejected (parts : List (List Char)) : Option Bool :=
  if parts.length != 25 then some true
  else do
    let first ← partAt parts 0
    if !contains "$1".data first then some true
    else do
      let last ← partAt parts 24
      some (!contains "0".data last)

/-- The body of the loop over the sensor channels (lines 95-105) for
channel `i`. -/
def channelStep (now : Nat) (parts : List (List Char)) (m_deviceList : List Int) (i : Nat) :
    Option (List Effect) := do
  let temperature ← partAt parts (2 + i)
  if !temperature.isEmpty then
    if !m_deviceList.contains (i : Int) then some [.createNewSensor i]
    else do
      let humidity ← partAt parts (2 + i + 8)
      some [.setStateValue i .temperatureStateTypeId (.germanToDouble temperature),
            .setStateValue i .humidityStateTypeId (.toInt humidity),
            .setStateValue i .lastUpdateStateTypeId (.currentTime now)]
  else some []

/-- The loop over the sensor channels (line 94), from channel `i` for
`count` channels. -/
def channelLoop (now : Nat) (parts : List (List Char)) (m_deviceList : List Int) :
    Nat → Nat → Option (List Effect)
  | _, 0 => some []
  | i, count + 1 => do
    let effects ← channelStep now parts m_deviceList i
    let later ← channelLoop now parts m_deviceList (i + 1) count
    some (effects ++ later)

/-- The handling of the wind and rain station (lines 108-121). -/
def windStep (now : Nat) (parts : List (List Char)) (m_deviceList : List Int) :
    Option (List Effect) := do
  let temperature ← partAt parts 19
  if !temperature.isEmpty then
    if !m_deviceList.contains 9 then some [.createNewSensor 9]
    else do
      let humidity ← partAt parts 20
      let wind ← partAt parts 21
      let rain ← partAt parts 22
      let isRain ← partAt parts 23
      some [.setStateValue 9 .temperatureStateTypeId (.germanToDouble temperature),
            .setStateValue 9 .humidityStateTypeId (.toInt humidity),
            .setStateValue 9 .windStrengthStateTypeId (.germanToDouble wind),
            .setStateValue 9 .rainStrengthStateTypeId (.germanToDouble rain),
            .setStateValue 9 .isRainStateTypeId (.bool (isRain == "1".data)),
            .setStateValue 9 .lastUpdateStateTypeId (.currentTime now)]
  else some []

/-- `DevicePluginUsbWde::guhTimer` at time `now`: the plugin after the call
and what was done to the sensors, `none` when a part is read at an index out
of range. -/
def guhTimer (plugin : Plugin) (now : Nat) : Option (Plugin × List Effect) :=
  if !plugin.m_readData.isEmpty then
    let parts := split ';' plugin.m_readData
    match frameRejected parts with
    | none => none
    | some true => some ({ plugin with m_readData := [] }, [])
    | some false => do
      let sensors ← channelLoop now parts plugin.m_deviceList 1 8
      let station ← windStep now parts plugin.m_deviceList
      some ({ plugin with m_readData := [] }, sensors ++ station)
  else some (plugin, [])

/-- The part indices that `guhTimer` reads: 0 and 24 in the validity check,
`2 + i` and `2 + i + 8` for the channels 1 to 8, and 19 to 23 for the wind
and rain station. -/
def readIndices : List Nat :=
  [0, 24] ++ (List.range' 1 8).flatMap (fun i => [2 + i, 2 + i + 8]) ++ [19, 20, 21, 22, 23]

/-- A frame of 25 parts whose first part is `x$1`, whose part 3 (the
temperature of channel 1) is `21,5` and whose last part is `0x`. -/
def looseFrame : List Char :=
  "x$1;;;21,5;;;;;;;;;;;;;;;;;;;;;0x".data

/-- A frame as the receiver sends it: channel 1 at 21,5 degrees and 45
percent, the station at 12,3 degrees, 60 percent, wind 5,5, rain 0, not
raining. -/
def sampleFrame : List Char :=
  "$1;1;;21,5;;;;;;;;45;;;;;;;;12,3;60;5,5;0;0;0".data

end DevicePluginUsbWde

namespace nymeaserver

open Types

/-! ## A call of evaluate on the process state -/

/-- A line that `evaluate` writes to the logging categories `dcRuleEngine`
and `dcRuleEngineDebug`, named by the statement that writes it. -/
inductive EvaluateMessage where
  | evaluating (operatorType : StateOperator) (validDescriptor : Bool) (childs : Nat)
  | stateMatching (thingId : ThingId) (stateTypeId : StateTypeId)
  | noSuchState
  | deviceNotExisting
  | noThingClass (thingId : ThingId)
  | descriptorMatchingOr
  | childTrueOr
  | noChildTrue
  | descriptorNotMatchingAnd
  | childNotMatching
  | allMatching
  deriving DecidableEq, Repr

/-- What a call of `evaluate` reaches outside the evaluator: the registry
behind `NymeaCore::instance()->thingManager()`, and the lines written to the
log so far. -/
structure ProcessState where
  thingManager : ThingManager
  messages : List EvaluateMessage
  deriving DecidableEq, Repr

/-- A `qCDebug` or `qCWarning` statement of `evaluate`: the line is added to
the log. -/
def ProcessState.write (s : ProcessState) (message : EvaluateMessage) : ProcessState :=
  { s with messages := s.messages ++ [message] }

namespace StateEvaluator

/-- The statements of the loop of `evaluate` over the configured things
(lines 136-152) on the process state: the result of the loop and the process
state after it. The registry is read in the state each statement finds. -/
def interfaceMatchingRun (d : StateDescriptor) :
    ProcessState → List Thing → Bool × ProcessState
  | s, [] => (false, s)
  | s, device :: rest =>
    let thingClass := s.thingManager.findThingClass device.thingClassId
    if !thingClass.isValid then
      interfaceMatchingRun d (s.write (.noThingClass device.id)) rest
    else if thingClass.interfaces.contains d.interface then
      let stateType := StateType.findByName thingClass.stateTypes d.interfaceState
      let state := device.state stateType.id
      let temporaryDescriptor :=
        StateDescriptor.byThing stateType.id device.id d.stateValue d.operatorType
      if temporaryDescriptor.matchesState state then (true, s)
      else interfaceMatchingRun d s rest
    else interfaceMatchingRun d s rest

/-- The statements of `evaluate` that set the local `descriptorMatching`
(lines 117-154) on the process state. -/
def descriptorMatchingRun (s : ProcessState) (d : StateDescriptor) : Bool × ProcessState :=
  if d.isValid then
    if d.type == .TypeDevice then
      match s.thingManager.findConfiguredThing d.thingId with
      | some device =>
        if device.hasState d.stateTypeId then
          if d.matchesState (device.state d.stateTypeId) then
            (true, s.write (.stateMatching device.id d.stateTypeId))
          else (false, s)
        else (false, s.write .noSuchState)
      | none => (false, s.write .deviceNotExisting)
    else interfaceMatchingRun d s s.thingManager.configuredThings
  else (true, s)

mutual
/-- `StateEvaluator::evaluate` statement by statement on the process state:
the result, the evaluator after the call and the process state after the
call. Each child is called in the state its predecessor left, and the node
after the call holds the children as their calls left them. -/
def evaluateRun (s : ProcessState) : StateEvaluator → Bool × StateEvaluator × ProcessState
  | .mk m_stateDescriptor m_childEvaluators m_operatorType =>
    match descriptorMatchingRun
        (s.write (.evaluating m_operatorType m_stateDescriptor.isValid
          m_childEvaluators.length))
        m_stateDescriptor with
    | (descriptorMatching, s) =>
      if m_operatorType == .StateOperatorOr then
        if m_stateDescriptor.isValid && descriptorMatching then
          (true, .mk m_stateDescriptor m_childEvaluators m_operatorType,
            s.write .descriptorMatchingOr)
        else
          match evaluateAnyRun s m_childEvaluators with
          | (result, childEvaluators, s) =>
            (result, .mk m_stateDescriptor childEvaluators m_operatorType, s)
      else if !descriptorMatching then
        (false, .mk m_stateDescriptor m_childEvaluators m_operatorType,
          s.write .descriptorNotMatchingAnd)
      else
        match evaluateAllRun s m_childEvaluators with
        | (result, childEvaluators, s) =>
          (result, .mk m_stateDescriptor childEvaluators m_operatorType, s)
/-- The loop of `evaluate` for OR (lines 161-168) on the process state. -/
def evaluateAnyRun (s : ProcessState) :
    List StateEvaluator → Bool × List StateEvaluator × ProcessState
  | [] => (false, [], s.write .noChildTrue)
  | stateEvaluator :: rest =>
    match evaluateRun s stateEvaluator with
    | (result, stateEvaluator, s) =>
      if result then (true, stateEvaluator :: rest, s.write .childTrueOr)
      else
        match evaluateAnyRun s rest with
        | (result, rest, s) => (result, stateEvaluator :: rest, s)
/-- The loop of `evaluate` for AND (lines 176-183) on the process state. -/
def evaluateAllRun (s : ProcessState) :
    List StateEvaluator → Bool × List StateEvaluator × ProcessState
  | [] => (true, [], s.write .allMatching)
  | stateEvaluator :: rest =>
    match evaluateRun s stateEvaluator with
    | (result, stateEvaluator, s) =>
      if !result then (false, stateEvaluator :: rest, s.write .childNotMatching)
      else
        match evaluateAllRun s rest with
        | (result, rest, s) => (result, stateEvaluator :: rest, s)
end

end StateEvaluator

end nymeaserver

namespace nymeaserver

open Types

/-! ## The loops as list quantifiers -/

namespace StateEvaluator

theorem evaluateAny_eq_any (tm : ThingManager) (cs : List StateEvaluator) :
    evaluateAny tm cs = cs.any (evaluate tm) := by
  induction cs with
  | nil => simp [evaluateAny]
  | cons c rest ih => cases h : evaluate tm c <;> simp [evaluateAny, h, ih]

theorem evaluateAll_eq_all (tm : ThingManager) (cs : List StateEvaluator) :
    evaluateAll tm cs = cs.all (evaluate tm) := by
  induction cs with
  | nil => simp [evaluateAll]
  | cons c rest ih => cases h : evaluate tm c <;> simp [evaluateAll, h, ih]

theorem evaluate_mk_and (tm : ThingManager) (d : StateDescriptor) (cs : List StateEvaluator) :
    evaluate tm (.mk d cs .StateOperatorAnd)
      = (descriptorMatching tm d && cs.all (evaluate tm)) := by
  cases h : descriptorMatching tm d <;> simp [evaluate, h, evaluateAll_eq_all]

theorem evaluate_mk_or (tm : ThingManager) (d : StateDescriptor) (cs : List StateEvaluator) :
    evaluate tm (.mk d cs .StateOperatorOr)
      = ((d.isValid && descriptorMatching tm d) || cs.any (evaluate tm)) := by
  cases h : descriptorMatching tm d <;> cases hv : d.isValid <;>
    simp [evaluate, h, hv, evaluateAny_eq_any]

/-! ## Evaluation -/

/-- C1: an evaluator whose combinator is AND evaluates to true exactly when
its descriptor is empty (not valid) or matches the registry, and every child
evaluates to true; the children are arbitrary trees, so this holds at every
depth. -/
theorem evaluate_and_iff (tm : ThingManager) (d : StateDescriptor)
    (cs : List StateEvaluator) :
    evaluate tm (.mk d cs .StateOperatorAnd) = true
      ↔ (d.isValid = false ∨ descriptorMatches tm d = true)
          ∧ ∀ c ∈ cs, evaluate tm c = true := by
  rw [evaluate_mk_and]
  cases hv : d.isValid <;> simp [descriptorMatching, hv]

/-- C2: an evaluator whose combinator is OR evaluates to true exactly when
its descriptor is non-empty (valid) and matches the registry, or at least
one child evaluates to true. -/
theorem evaluate_or_iff (tm : ThingManager) (d : StateDescriptor)
    (cs : List StateEvaluator) :
    evaluate tm (.mk d cs .StateOperatorOr) = true
      ↔ (d.isValid = true ∧ descriptorMatches tm d = true)
          ∨ ∃ c ∈ cs, evaluate tm c = true := by
  rw [evaluate_mk_or]
  cases hv : d.isValid <;> simp [descriptorMatching, hv]

/-- C3, as stated, fails: the evaluator with the unset descriptor, no
children and combinator OR is empty, and it evaluates to false. -/
theorem empty_or_evaluates_false :
    isEmpty (.mk StateDescriptor.empty [] .StateOperatorOr) = true
      ∧ evaluate emptyRegistry (.mk StateDescriptor.empty [] .StateOperatorOr) = false := by
  decide

/-- C3, amended: an empty evaluator (descriptor not valid, no children)
evaluates to true when its combinator is AND and to false when it is OR,
whatever the registry. -/
theorem evaluate_of_isEmpty (tm : ThingManager) (e : StateEvaluator)
    (h : e.isEmpty = true) :
    (e.operatorType = .StateOperatorAnd → evaluate tm e = true)
      ∧ (e.operatorType = .StateOperatorOr → evaluate tm e = false) := by
  obtain ⟨d, cs, op⟩ := e
  simp only [isEmpty, Bool.and_eq_true, Bool.not_eq_true', List.isEmpty_iff] at h
  obtain ⟨hd, hcs⟩ := h
  subst hcs
  constructor
  · intro hop
    simp only [operatorType] at hop
    subst hop
    simp [evaluate_mk_and, descriptorMatching, hd]
  · intro hop
    simp only [operatorType] at hop
    subst hop
    simp [evaluate_mk_or, hd]

/-- The unset descriptor without children under AND: the evaluator is empty
and evaluates to true in the registry without things. -/
theorem evaluate_of_isEmpty_witness :
    isEmpty (.mk StateDescriptor.empty [] .StateOperatorAnd) = true
      ∧ evaluate emptyRegistry (.mk StateDescriptor.empty [] .StateOperatorAnd) = true :=
  ⟨by decide,
   (evaluate_of_isEmpty emptyRegistry (.mk StateDescriptor.empty [] .StateOperatorAnd)
      (by decide)).1 rfl⟩

/-! ## By-interface descriptors -/

theorem interfaceMatching_iff (tm : ThingManager) (d : StateDescriptor) (things : List Thing) :
    interfaceMatching tm d things = true
      ↔ ∃ t ∈ things, (tm.findThingClass t.thingClassId).isValid = true
          ∧ d.interface ∈ (tm.findThingClass t.thingClassId).interfaces
          ∧ (StateDescriptor.byThing
                (StateType.findByName (tm.findThingClass t.thingClassId).stateTypes
                  d.interfaceState).id
                t.id d.stateValue d.operatorType).matchesState
              (t.state (StateType.findByName (tm.findThingClass t.thingClassId).stateTypes
                  d.interfaceState).id) = true := by
  induction things with
  | nil => simp [interfaceMatching]
  | cons t rest ih =>
    simp only [interfaceMatching, List.mem_cons, exists_eq_or_imp]
    by_cases hv : (tm.findThingClass t.thingClassId).isValid = true
    · by_cases hi : d.interface ∈ (tm.findThingClass t.thingClassId).interfaces
      · by_cases hm : (StateDescriptor.byThing
                (StateType.findByName (tm.findThingClass t.thingClassId).stateTypes
                  d.interfaceState).id
                t.id d.stateValue d.operatorType).matchesState
              (t.state (StateType.findByName (tm.findThingClass t.thingClassId).stateTypes
                  d.interfaceState).id) = true
        · simp [hv, hi, hm]
        · simp [hv, hi, hm, ih]
      · simp [hv, hi, ih]
    · simp [hv, ih]

theorem matchesState_found_iff (t : Thing) (stateTypes : List StateType) (name : String)
    (value : QVariant) (op : ValueOperator)
    (hid : t.id.isNull = false)
    (hst : ∀ s ∈ t.states, s.stateTypeId.isNull = false ∧ s.thingId = t.id) :
    (StateDescriptor.byThing (StateType.findByName stateTypes name).id t.id value
        op).matchesState (t.state (StateType.findByName stateTypes name).id) = true
      ↔ ∃ st s, stateTypes.find? (fun x => x.name == name) = some st
          ∧ t.states.find? (fun x => x.stateTypeId == st.id) = some s
          ∧ compare s.value op value = true := by
  have hid0 : t.id ≠ 0 := by simpa [QUuid.isNull] using hid
  unfold StateType.findByName Thing.state
  cases hfind : stateTypes.find? (fun x => x.name == name) with
  | none =>
    simp only [Option.getD_none, StateType.null]
    cases hs : t.states.find? (fun x => x.stateTypeId == 0) with
    | none =>
      simp [StateDescriptor.matchesState, StateDescriptor.byThing, State.null, hid0]
    | some s =>
      have hmem := List.mem_of_find?_eq_some hs
      have h0 := List.find?_some hs
      have := (hst s hmem).1
      simp [QUuid.isNull] at this h0
      exact absurd h0 this
  | some st =>
    cases hs : t.states.find? (fun x => x.stateTypeId == st.id) with
    | none =>
      simp [StateDescriptor.matchesState, StateDescriptor.byThing, State.null, hid0, hs]
    | some s =>
      have hmem := List.mem_of_find?_eq_some hs
      have h0 := List.find?_some hs
      have h1 := (hst s hmem).2
      simp at h0
      simp [StateDescriptor.matchesState, StateDescriptor.byThing, hs, h0, h1]


theorem statesConsistent_thing (tm : ThingManager) (h : tm.statesConsistent = true)
    (t : Thing) (ht : t ∈ tm.configuredThings) :
    t.id.isNull = false
      ∧ ∀ s ∈ t.states, s.stateTypeId.isNull = false ∧ s.thingId = t.id := by
  simp only [ThingManager.statesConsistent, List.all_eq_true, Bool.and_eq_true,
    Bool.not_eq_true', beq_iff_eq] at h
  exact h t ht

/-- C4: a childless AND node with a valid by-interface descriptor evaluates
to true exactly when some configured thing satisfies it: the thing's class
declares the interface and the thing's current value of the state of that
name satisfies the operator against the target value (the registry keeping
the states of its things consistent).  With three lights whose `on` states
are false, false, true the descriptor `(Light, on, Equals, true)` evaluates
to true; with all three false it evaluates to false. -/
theorem byInterface_evaluate_iff :
    (∀ (tm : ThingManager) (d : StateDescriptor), tm.statesConsistent = true →
        d.isValid = true → d.type = .TypeInterface →
        (evaluate tm (.mk d [] .StateOperatorAnd) = true
          ↔ ∃ t ∈ tm.configuredThings, thingSatisfies tm d t))
      ∧ evaluate (lights false false true) (.mk lightOnDescriptor [] .StateOperatorAnd) = true
      ∧ evaluate (lights false false false) (.mk lightOnDescriptor [] .StateOperatorAnd)
          = false := by
  refine ⟨?_, by decide, by decide⟩
  intro tm d hwf hv ht
  have key : evaluate tm (.mk d [] .StateOperatorAnd)
      = interfaceMatching tm d tm.configuredThings := by
    simp [evaluate_mk_and, descriptorMatching, hv, descriptorMatches, ht]
  rw [key, interfaceMatching_iff]
  unfold thingSatisfies
  constructor
  · rintro ⟨t, hmem, hcv, hci, hm⟩
    obtain ⟨hid, hst⟩ := statesConsistent_thing tm hwf t hmem
    exact ⟨t, hmem, hcv, hci, (matchesState_found_iff t _ _ _ _ hid hst).1 hm⟩
  · rintro ⟨t, hmem, hcv, hci, hm⟩
    obtain ⟨hid, hst⟩ := statesConsistent_thing tm hwf t hmem
    exact ⟨t, hmem, hcv, hci, (matchesState_found_iff t _ _ _ _ hid hst).2 hm⟩

/-- The three lights with states false, false, true: the registry is
consistent, the descriptor is a valid by-interface one, and the leaf is true
exactly when some light satisfies the descriptor. -/
theorem byInterface_evaluate_iff_witness :
    (lights false false true).statesConsistent = true
      ∧ lightOnDescriptor.isValid = true
      ∧ lightOnDescriptor.type = .TypeInterface
      ∧ (evaluate (lights false false true) (.mk lightOnDescriptor [] .StateOperatorAnd) = true
          ↔ ∃ t ∈ (lights false false true).configuredThings,
              thingSatisfies (lights false false true) lightOnDescriptor t) :=
  ⟨by decide, by decide, by decide,
   byInterface_evaluate_iff.1 (lights false false true) lightOnDescriptor
     (by decide) (by decide) (by decide)⟩

/-! ## Unresolved references -/

theorem descriptorMatches_unresolved (tm : ThingManager) (d : StateDescriptor)
    (ht : d.type = .TypeDevice) (hu : d.unresolved tm = true) :
    descriptorMatches tm d = false := by
  unfold StateDescriptor.unresolved at hu
  unfold descriptorMatches
  cases hf : tm.findConfiguredThing d.thingId with
  | none => simp [ht]
  | some thing =>
    rw [hf] at hu
    simp only [Bool.not_eq_true'] at hu
    simp [ht, hu]

theorem findConfiguredThing_eq_none (tm : ThingManager) (id : ThingId) :
    tm.findConfiguredThing id = none ↔ ∀ t ∈ tm.configuredThings, t.id ≠ id := by
  simp [ThingManager.findConfiguredThing, List.find?_eq_none]

/-- C5: a node whose valid by-thing descriptor names a thing that is not in
the registry, or a thing that lacks the named state type, evaluates (the
evaluation is total) as if the descriptor did not match: to false when the
combinator is AND, and when it is OR to true exactly when some child
evaluates to true. -/
theorem evaluate_unresolved_byThing (tm : ThingManager) (d : StateDescriptor)
    (cs : List StateEvaluator) (hv : d.isValid = true) (ht : d.type = .TypeDevice)
    (hmiss : (∀ t ∈ tm.configuredThings, t.id ≠ d.thingId)
      ∨ ∃ thing, tm.findConfiguredThing d.thingId = some thing
          ∧ thing.hasState d.stateTypeId = false) :
    evaluate tm (.mk d cs .StateOperatorAnd) = false
      ∧ (evaluate tm (.mk d cs .StateOperatorOr) = true
          ↔ ∃ c ∈ cs, evaluate tm c = true) := by
  have hu : d.unresolved tm = true := by
    unfold StateDescriptor.unresolved
    rcases hmiss with h | ⟨thing, hf, hs⟩
    · rw [(findConfiguredThing_eq_none tm d.thingId).2 h]
    · rw [hf]; simp [hs]
  have hm := descriptorMatches_unresolved tm d ht hu
  constructor
  · simp [evaluate_mk_and, descriptorMatching, hv, hm]
  · simp [evaluate_mk_or, descriptorMatching, hv, hm]

/-- The three lights and a descriptor for thing 99, which is not
configured: the AND leaf is false, and the OR node over one child is true
exactly when that child is. -/
theorem evaluate_unresolved_byThing_witness :
    (∀ t ∈ (lights true true true).configuredThings, t.id ≠ 99)
      ∧ evaluate (lights true true true)
        (.mk (StateDescriptor.byThing 11 99 (.bool true) .ValueOperatorEquals) []
          .StateOperatorAnd) = false
      ∧ (evaluate (lights true true true)
          (.mk (StateDescriptor.byThing 11 99 (.bool true) .ValueOperatorEquals)
            [.mk lightOnDescriptor [] .StateOperatorAnd] .StateOperatorOr) = true
          ↔ ∃ c ∈ [StateEvaluator.mk lightOnDescriptor [] .StateOperatorAnd],
              evaluate (lights true true true) c = true) :=
  ⟨by decide,
   (evaluate_unresolved_byThing (lights true true true)
      (StateDescriptor.byThing 11 99 (.bool true) .ValueOperatorEquals) []
      (by decide) (by decide) (Or.inl (by decide))).1,
   (evaluate_unresolved_byThing (lights true true true)
      (StateDescriptor.byThing 11 99 (.bool true) .ValueOperatorEquals)
      [.mk lightOnDescriptor [] .StateOperatorAnd]
      (by decide) (by decide) (Or.inl (by decide))).2⟩

/-! ## Induction over trees -/

theorem induction_on {P : StateEvaluator → Prop}
    (h : ∀ d cs op, (∀ c ∈ cs, P c) → P (.mk d cs op)) (e : StateEvaluator) : P e :=
  StateEvaluator.rec (motive_1 := P) (motive_2 := fun cs => ∀ c ∈ cs, P c)
    (fun d cs op ih => h d cs op ih)
    (fun c hc => by cases hc)
    (fun c cs ihc ihcs x hx => by
      rcases List.mem_cons.1 hx with rfl | hx
      · exact ihc
      · exact ihcs x hx)
    e

theorem isValidAny_eq_any (tm : ThingManager) (cs : List StateEvaluator) :
    isValidAny tm cs = cs.any (isValid tm) := by
  induction cs with
  | nil => simp [isValidAny]
  | cons c rest ih => cases h : isValid tm c <;> simp [isValidAny, h, ih]

theorem isValidAll_eq_all (tm : ThingManager) (cs : List StateEvaluator) :
    isValidAll tm cs = cs.all (isValid tm) := by
  induction cs with
  | nil => simp [isValidAll]
  | cons c rest ih => cases h : isValid tm c <;> simp [isValidAll, h, ih]

theorem isValid_mk_and (tm : ThingManager) (d : StateDescriptor) (cs : List StateEvaluator) :
    isValid tm (.mk d cs .StateOperatorAnd)
      = (descriptorAccepted tm d && cs.all (isValid tm)) := by
  cases h : descriptorAccepted tm d <;> simp [isValid, h, isValidAll_eq_all]

theorem isValid_mk_or (tm : ThingManager) (d : StateDescriptor) (cs : List StateEvaluator) :
    isValid tm (.mk d cs .StateOperatorOr)
      = (descriptorAccepted tm d && cs.any (isValid tm)) := by
  cases h : descriptorAccepted tm d <;> simp [isValid, h, isValidAny_eq_any]

theorem mem_descriptorsEach (d : StateDescriptor) (cs : List StateEvaluator) :
    d ∈ descriptorsEach cs ↔ ∃ c ∈ cs, d ∈ descriptors c := by
  induction cs with
  | nil => simp [descriptorsEach]
  | cons c rest ih => simp [descriptorsEach, ih]

theorem mem_operatorsEach (op : StateOperator) (cs : List StateEvaluator) :
    op ∈ operatorsEach cs ↔ ∃ c ∈ cs, op ∈ operators c := by
  induction cs with
  | nil => simp [operatorsEach]
  | cons c rest ih => simp [operatorsEach, ih]

theorem descriptorAccepted_unresolved (tm : ThingManager) (d : StateDescriptor)
    (hv : d.isValid = true) (ht : d.type = .TypeDevice) (hu : d.unresolved tm = true) :
    descriptorAccepted tm d = false := by
  unfold StateDescriptor.unresolved at hu
  unfold descriptorAccepted
  cases hf : tm.findConfiguredThing d.thingId with
  | none => simp [hv, ht]
  | some thing =>
    rw [hf] at hu
    simp only [Bool.not_eq_true'] at hu
    simp [hv, ht, hu]

/-! ## Validity and evaluation -/

/-- C6, as stated, fails.  With a dimmer at brightness 50 whose state type
declares the maximum 100, the AND leaf asking for a brightness below 200 is
not valid (200 exceeds the maximum), yet it evaluates to true.  And with the
three lights off, off, on, the OR leaf asking thing 3 for `on` equal to true
is not valid (an OR node without a valid child), yet it evaluates to true. -/
theorem invalid_evaluates_true :
    (isValid dimmerRegistry
        (.mk (StateDescriptor.byThing 21 5 (.int 200) .ValueOperatorLess) []
          .StateOperatorAnd) = false
      ∧ evaluate dimmerRegistry
        (.mk (StateDescriptor.byThing 21 5 (.int 200) .ValueOperatorLess) []
          .StateOperatorAnd) = true)
    ∧ (isValid (lights false false true)
        (.mk (StateDescriptor.byThing 11 3 (.bool true) .ValueOperatorEquals) []
          .StateOperatorOr) = false
      ∧ evaluate (lights false false true)
        (.mk (StateDescriptor.byThing 11 3 (.bool true) .ValueOperatorEquals) []
          .StateOperatorOr) = true) := by
  decide

/-- C6, amended: in a tree whose combinators are all AND, if some valid
by-thing descriptor names a thing that is not configured or a state its
thing lacks, then the tree is not valid and it evaluates to false. -/
theorem evaluate_false_of_unresolved (tm : ThingManager) (e : StateEvaluator)
    (hand : ∀ op ∈ operators e, op = .StateOperatorAnd)
    (hun : ∃ d ∈ descriptors e,
      d.isValid = true ∧ d.type = .TypeDevice ∧ d.unresolved tm = true) :
    isValid tm e = false ∧ evaluate tm e = false := by
  induction e using induction_on with
  | h d cs op ih =>
    have hop : op = .StateOperatorAnd := hand op (by simp [operators])
    subst hop
    obtain ⟨d', hmem, hv, ht, hu⟩ := hun
    simp only [descriptors, List.mem_cons] at hmem
    rcases hmem with rfl | hmem
    · constructor
      · simp [isValid_mk_and, descriptorAccepted_unresolved tm d' hv ht hu]
      · simp [evaluate_mk_and, descriptorMatching, hv,
          descriptorMatches_unresolved tm d' ht hu]
    · obtain ⟨c, hc, hdc⟩ := (mem_descriptorsEach d' cs).1 hmem
      have hcand : ∀ op ∈ operators c, op = .StateOperatorAnd := by
        intro op hop
        apply hand
        simp only [operators, List.mem_cons]
        exact Or.inr ((mem_operatorsEach op cs).2 ⟨c, hc, hop⟩)
      obtain ⟨h1, h2⟩ := ih c hc hcand ⟨d', hdc, hv, ht, hu⟩
      constructor
      · rw [isValid_mk_and]
        have : cs.all (isValid tm) = false := by
          rw [List.all_eq_false]
          exact ⟨c, hc, by simp [h1]⟩
        simp [this]
      · rw [evaluate_mk_and]
        have : cs.all (evaluate tm) = false := by
          rw [List.all_eq_false]
          exact ⟨c, hc, by simp [h2]⟩
        simp [this]

/-- An AND tree over the three lights with a nested leaf for thing 99, which
is not configured: all combinators are AND, the nested descriptor does not
resolve, and the tree is neither valid nor true. -/
theorem evaluate_false_of_unresolved_witness :
    (∀ op ∈ operators unresolvedTree, op = .StateOperatorAnd)
      ∧ (∃ d ∈ descriptors unresolvedTree,
          d.isValid = true ∧ d.type = .TypeDevice
            ∧ d.unresolved (lights true true true) = true)
      ∧ isValid (lights true true true) unresolvedTree = false
      ∧ evaluate (lights true true true) unresolvedTree = false :=
  ⟨by decide,
   ⟨StateDescriptor.byThing 11 99 (.bool true) .ValueOperatorEquals, by decide, by decide,
     by decide, by decide⟩,
   evaluate_false_of_unresolved (lights true true true) unresolvedTree (by decide)
     ⟨StateDescriptor.byThing 11 99 (.bool true) .ValueOperatorEquals, by decide, by decide,
       by decide, by decide⟩⟩

/-! ## Removing a thing -/

theorem containsThingAny_eq_any (thingId : ThingId) (cs : List StateEvaluator) :
    containsThingAny thingId cs = cs.any (containsThing thingId) := by
  induction cs with
  | nil => simp [containsThingAny]
  | cons c rest ih => cases h : containsThing thingId c <;> simp [containsThingAny, h, ih]

theorem containsThing_iff (thingId : ThingId) (e : StateEvaluator) :
    containsThing thingId e = true ↔ ∃ d ∈ descriptors e, d.thingId = thingId := by
  induction e using induction_on with
  | h d cs op ih =>
    simp only [containsThing, containsThingAny_eq_any, descriptors, List.mem_cons,
      exists_eq_or_imp]
    by_cases hd : d.thingId = thingId
    · simp [hd]
    · simp only [beq_iff_eq, hd, if_false, false_or, List.any_eq_true]
      constructor
      · rintro ⟨c, hc, hct⟩
        obtain ⟨d', hd', hid⟩ := (ih c hc).1 hct
        exact ⟨d', (mem_descriptorsEach d' cs).2 ⟨c, hc, hd'⟩, hid⟩
      · rintro ⟨d', hd', hid⟩
        obtain ⟨c, hc, hdc⟩ := (mem_descriptorsEach d' cs).1 hd'
        exact ⟨c, hc, (ih c hc).2 ⟨d', hdc, hid⟩⟩

theorem removeThingEach_eq_map (thingId : ThingId) (cs : List StateEvaluator) :
    removeThingEach thingId cs = cs.map (removeThing thingId) := by
  induction cs with
  | nil => simp [removeThingEach]
  | cons c rest ih => simp [removeThingEach, ih]

theorem descriptorsEach_removeThingEach (thingId : ThingId) (cs : List StateEvaluator)
    (h : ∀ c ∈ cs, descriptors (removeThing thingId c)
      = (descriptors c).map
          (fun d => if d.thingId = thingId then StateDescriptor.empty else d)) :
    descriptorsEach (removeThingEach thingId cs)
      = (descriptorsEach cs).map
          (fun d => if d.thingId = thingId then StateDescriptor.empty else d) := by
  induction cs with
  | nil => simp [removeThingEach, descriptorsEach]
  | cons c rest ih =>
    simp only [removeThingEach, descriptorsEach, List.map_append]
    rw [h c (List.mem_cons_self _ _), ih (fun x hx => h x (List.mem_cons_of_mem _ hx))]

theorem descriptors_removeThing (thingId : ThingId) (e : StateEvaluator) :
    descriptors (removeThing thingId e)
      = (descriptors e).map
          (fun d => if d.thingId = thingId then StateDescriptor.empty else d) := by
  induction e using induction_on with
  | h d cs op ih =>
    simp only [removeThing, descriptors, List.map_cons, beq_iff_eq]
    rw [descriptorsEach_removeThingEach thingId cs ih]

theorem shapeEach_eq_map (cs : List StateEvaluator) : shapeEach cs = cs.map shape := by
  induction cs with
  | nil => simp [shapeEach]
  | cons c rest ih => simp [shapeEach, ih]

theorem shape_removeThing (thingId : ThingId) (e : StateEvaluator) :
    shape (removeThing thingId e) = shape e := by
  induction e using induction_on with
  | h d cs op ih =>
    simp only [removeThing, shape, removeThingEach_eq_map, shapeEach_eq_map, List.map_map]
    congr 1
    apply List.map_congr_left
    intro c hc
    exact ih c hc

theorem getElem?_descriptors_removeThing (thingId : ThingId) (e : StateEvaluator) (i : Nat) :
    (descriptors (removeThing thingId e))[i]?
      = ((descriptors e)[i]?).map
          (fun d => if d.thingId = thingId then StateDescriptor.empty else d) := by
  rw [descriptors_removeThing, List.getElem?_map]

/-- C7: after `removeThing` for a non-null thing id no descriptor of the
tree is bound to that id (`containsThing` is false), the tree has as many
descriptors as before and each one that was bound to the id is now the unset
descriptor, and a childless AND leaf whose descriptor was bound to the id
evaluates to true in every registry. -/
theorem removeThing_clears (thingId : ThingId) (e : StateEvaluator)
    (hid : thingId.isNull = false) :
    containsThing thingId (removeThing thingId e) = false
      ∧ (descriptors (removeThing thingId e)).length = (descriptors e).length
      ∧ (∀ (i : Nat) (d : StateDescriptor), (descriptors e)[i]? = some d → d.thingId = thingId →
          (descriptors (removeThing thingId e))[i]? = some StateDescriptor.empty)
      ∧ ∀ tm d, d.thingId = thingId →
          evaluate tm (removeThing thingId (.mk d [] .StateOperatorAnd)) = true := by
  have hne : thingId ≠ 0 := by simpa [QUuid.isNull] using hid
  refine ⟨?_, ?_, ?_, ?_⟩
  · rw [Bool.eq_false_iff]
    intro hc
    obtain ⟨d, hd, hdid⟩ := (containsThing_iff thingId _).1 hc
    rw [descriptors_removeThing, List.mem_map] at hd
    obtain ⟨d0, _, hd0⟩ := hd
    by_cases h0 : d0.thingId = thingId
    · rw [if_pos h0] at hd0
      rw [← hd0] at hdid
      exact hne hdid.symm
    · rw [if_neg h0] at hd0
      rw [← hd0] at hdid
      exact h0 hdid
  · rw [descriptors_removeThing, List.length_map]
  · intro i d hd hdid
    rw [getElem?_descriptors_removeThing, hd]
    simp [hdid]
  · intro tm d hdid
    have : removeThing thingId (.mk d [] .StateOperatorAnd)
        = .mk StateDescriptor.empty [] .StateOperatorAnd := by
      simp [removeThing, removeThingEach, hdid]
    rw [this, evaluate_mk_and]
    simp [descriptorMatching, StateDescriptor.isValid, StateDescriptor.empty,
      QVariant.isValid, QVariant.type]

/-- Thing 3 removed from a tree that names it twice: the id is non-null, it
no longer occurs, and both descriptors that named it are unset. -/
theorem removeThing_clears_witness :
    QUuid.isNull 3 = false
      ∧ containsThing 3 removalTree = true
      ∧ containsThing 3 (removeThing 3 removalTree) = false
      ∧ (descriptors (removeThing 3 removalTree))[0]? = some StateDescriptor.empty
      ∧ (descriptors (removeThing 3 removalTree))[3]? = some StateDescriptor.empty :=
  ⟨by decide, by decide, (removeThing_clears 3 removalTree (by decide)).1,
   (removeThing_clears 3 removalTree (by decide)).2.2.1 0
     (StateDescriptor.byThing 11 3 (.bool true) .ValueOperatorEquals) (by decide) (by decide),
   (removeThing_clears 3 removalTree (by decide)).2.2.1 3
     (StateDescriptor.byThing 11 3 (.bool false) .ValueOperatorNotEquals) (by decide)
     (by decide)⟩

/-- C8, as stated, fails for the null thing id: `removeThing` with the null
id turns the valid by-interface descriptor `(Light, on, Equals, true)` of a
leaf into the unset descriptor. -/
theorem removeThing_null_clears_interface :
    lightOnDescriptor.type = .TypeInterface
      ∧ lightOnDescriptor.isValid = true
      ∧ descriptors (removeThing 0 (.mk lightOnDescriptor [] .StateOperatorAnd))
          = [StateDescriptor.empty]
      ∧ StateDescriptor.empty ≠ lightOnDescriptor := by
  decide

/-- C8, amended: for every thing id `removeThing` keeps the shape of the
tree (the children of every node, in number and order, and every
combinator) and every descriptor whose thing id differs from the id; for a
non-null id these include the unset descriptors and the by-interface
descriptors, whose thing id is null. -/
theorem removeThing_frame (thingId : ThingId) (e : StateEvaluator) :
    shape (removeThing thingId e) = shape e
      ∧ (descriptors (removeThing thingId e)).length = (descriptors e).length
      ∧ (∀ (i : Nat) (d : StateDescriptor), (descriptors e)[i]? = some d → d.thingId ≠ thingId →
          (descriptors (removeThing thingId e))[i]? = some d)
      ∧ (thingId.isNull = false → ∀ (i : Nat) (d : StateDescriptor), (descriptors e)[i]? = some d →
          (d = StateDescriptor.empty
            ∨ ∃ interface interfaceState stateValue operatorType,
                d = StateDescriptor.byInterface interface interfaceState stateValue
                      operatorType) →
          (descriptors (removeThing thingId e))[i]? = some d) := by
  have key : ∀ (i : Nat) (d : StateDescriptor), (descriptors e)[i]? = some d → d.thingId ≠ thingId →
      (descriptors (removeThing thingId e))[i]? = some d := by
    intro i d hd hne
    rw [getElem?_descriptors_removeThing, hd]
    simp [hne]
  refine ⟨shape_removeThing thingId e, ?_, key, ?_⟩
  · rw [descriptors_removeThing, List.length_map]
  · intro hid i d hd hnull
    have hne : thingId ≠ 0 := by simpa [QUuid.isNull] using hid
    apply key i d hd
    rcases hnull with rfl | ⟨a, b, c, o, rfl⟩
    · exact fun h => hne h.symm
    · exact fun h => hne h.symm

/-- Thing 3 removed from a tree that names it twice: the shape is kept, and
the by-interface leaf, the leaf for thing 2 and the unset leaf are kept. -/
theorem removeThing_frame_witness :
    shape (removeThing 3 removalTree) = shape removalTree
      ∧ (descriptors (removeThing 3 removalTree))[1]? = some lightOnDescriptor
      ∧ (descriptors (removeThing 3 removalTree))[2]?
          = some (StateDescriptor.byThing 11 2 (.bool false) .ValueOperatorEquals)
      ∧ (descriptors (removeThing 3 removalTree))[4]? = some StateDescriptor.empty :=
  ⟨(removeThing_frame 3 removalTree).1,
   (removeThing_frame 3 removalTree).2.2.2 (by decide) 1 lightOnDescriptor (by decide)
     (Or.inr ⟨"Light", "on", .bool true, .ValueOperatorEquals, rfl⟩),
   (removeThing_frame 3 removalTree).2.2.1 2
     (StateDescriptor.byThing 11 2 (.bool false) .ValueOperatorEquals) (by decide) (by decide),
   (removeThing_frame 3 removalTree).2.2.2 (by decide) 4 StateDescriptor.empty (by decide)
     (Or.inl rfl)⟩

/-! ## Validity of a leaf -/

theorem stateTypesAccept_iff (d : StateDescriptor) (stateTypes : List StateType) :
    stateTypesAccept d stateTypes = true
      ↔ ∀ st ∈ stateTypes, st.id = d.stateTypeId → valueAccepted d.stateValue st := by
  induction stateTypes with
  | nil => simp [stateTypesAccept]
  | cons st rest ih =>
    simp only [stateTypesAccept, List.mem_cons, forall_eq_or_imp, beq_iff_eq]
    by_cases hid : st.id = d.stateTypeId
    · simp only [hid, if_true, true_implies]
      cases hc : d.stateValue.convert st.type with
      | none => simp [valueAccepted, hc]
      | some v =>
        simp only [valueAccepted, hc, Option.some.injEq, exists_eq_left']
        by_cases hmax : (st.maxValue.isValid && v.greaterThan st.maxValue) = true
        · simp only [hmax, if_true, Bool.false_eq_true, false_iff]
          rw [Bool.and_eq_true] at hmax
          exact fun h => h.1.1 hmax
        · by_cases hmin : (st.minValue.isValid && v.lessThan st.minValue) = true
          · simp only [hmax, hmin, if_true, if_false, Bool.false_eq_true, false_iff]
            rw [Bool.and_eq_true] at hmin
            exact fun h => h.1.2.1 hmin
          · by_cases hp : (!st.possibleValues.isEmpty
                && !st.possibleValues.any (fun p => p.equals v)) = true
            · simp only [hmax, hmin, hp, if_true, if_false, Bool.false_eq_true, false_iff]
              simp only [Bool.and_eq_true, Bool.not_eq_true', List.isEmpty_eq_false,
                List.any_eq_false] at hp
              rintro ⟨⟨_, _, h3⟩, _⟩
              obtain ⟨p, hpm, hpe⟩ := h3 hp.1
              exact hp.2 p hpm hpe
            · simp only [hmax, hmin, hp, Bool.false_eq_true, if_false, ih]
              rw [Bool.and_eq_true] at hmax hmin
              simp only [Bool.and_eq_true, Bool.not_eq_true', List.isEmpty_eq_false,
                List.any_eq_false, not_and, not_forall, Bool.not_eq_false] at hp
              constructor
              · intro h
                refine ⟨⟨hmax, hmin, ?_⟩, h⟩
                intro hne
                obtain ⟨p, hpm, hpe⟩ := hp hne
                exact ⟨p, hpm, by simpa using hpe⟩
              · exact fun h => h.2
    · simp [hid, ih]

/-- C9: a childless AND node with a valid by-thing descriptor is valid
exactly when the thing is configured, the thing has the state type, and for
the state type its class declares under that id the target value converts
to the declared type, the converted value is not above a declared maximum,
not below a declared minimum, and is among the possible values when the
state type lists any. -/
theorem isValid_byThing_leaf_iff (tm : ThingManager) (d : StateDescriptor)
    (hv : d.isValid = true) (ht : d.type = .TypeDevice) :
    isValid tm (.mk d [] .StateOperatorAnd) = true
      ↔ ∃ thing, tm.findConfiguredThing d.thingId = some thing
          ∧ thing.hasState d.stateTypeId = true
          ∧ ∀ st ∈ (tm.findThingClass thing.thingClassId).stateTypes,
              st.id = d.stateTypeId → valueAccepted d.stateValue st := by
  rw [isValid_mk_and]
  simp only [List.all_nil, Bool.and_true, descriptorAccepted, hv, ht, if_true, beq_self_eq_true]
  cases hf : tm.findConfiguredThing d.thingId with
  | none => simp
  | some thing =>
    cases hs : thing.hasState d.stateTypeId with
    | false => simp [hs]
    | true => simp [hs, stateTypesAccept_iff]

/-- The dimmer with brightness between 0 and 100: the leaf asking for a
brightness equal to 50 is valid, the one asking for 200 is not. -/
theorem isValid_byThing_leaf_iff_witness :
    (StateDescriptor.byThing 21 5 (.int 50) .ValueOperatorEquals).isValid = true
      ∧ (StateDescriptor.byThing 21 5 (.int 50) .ValueOperatorEquals).type = .TypeDevice
      ∧ (isValid dimmerRegistry
            (.mk (StateDescriptor.byThing 21 5 (.int 50) .ValueOperatorEquals) []
              .StateOperatorAnd) = true
          ↔ ∃ thing, dimmerRegistry.findConfiguredThing 5 = some thing
              ∧ thing.hasState 21 = true
              ∧ ∀ st ∈ (dimmerRegistry.findThingClass thing.thingClassId).stateTypes,
                  st.id = 21 → valueAccepted (.int 50) st)
      ∧ isValid dimmerRegistry
            (.mk (StateDescriptor.byThing 21 5 (.int 50) .ValueOperatorEquals) []
              .StateOperatorAnd) = true
      ∧ isValid dimmerRegistry
            (.mk (StateDescriptor.byThing 21 5 (.int 200) .ValueOperatorEquals) []
              .StateOperatorAnd) = false :=
  ⟨by decide, by decide,
   isValid_byThing_leaf_iff dimmerRegistry
     (StateDescriptor.byThing 21 5 (.int 50) .ValueOperatorEquals) (by decide) (by decide),
   by decide, by decide⟩

theorem byInterface_names_nonempty (d : StateDescriptor) (hv : d.isValid = true)
    (ht : d.type = .TypeInterface) : d.interface ≠ "" ∧ d.interfaceState ≠ "" := by
  unfold StateDescriptor.type at ht
  unfold StateDescriptor.isValid at hv
  by_cases hb : (!d.thingId.isNull && !d.stateTypeId.isNull) = true
  · simp [hb] at ht
  · simp only [Bool.not_eq_true] at hb
    rw [hb] at hv
    simp only [Bool.false_or, Bool.and_eq_true, Bool.not_eq_true'] at hv
    obtain ⟨⟨h1, h2⟩, _⟩ := hv
    constructor
    · intro h
      rw [h] at h1
      exact absurd h1 (by decide)
    · intro h
      rw [h] at h2
      exact absurd h2 (by decide)

/-- C10: a childless AND node with a valid by-interface descriptor is valid
exactly when the supported interfaces contain an interface of the
descriptor's interface name (the one `findByName` finds) and that interface
declares a state of the descriptor's state name. -/
theorem isValid_byInterface_leaf_iff (tm : ThingManager) (d : StateDescriptor)
    (hv : d.isValid = true) (ht : d.type = .TypeInterface) :
    isValid tm (.mk d [] .StateOperatorAnd) = true
      ↔ ∃ iface, tm.supportedInterfaces.find? (fun i => i.name == d.interface) = some iface
          ∧ ∃ st ∈ iface.stateTypes, st.name = d.interfaceState := by
  obtain ⟨hI, hN⟩ := byInterface_names_nonempty d hv ht
  have hacc : descriptorAccepted tm d
      = ((Interface.findByName tm.supportedInterfaces d.interface).isValid
          && !(InterfaceStateType.findByName
                (Interface.findByName tm.supportedInterfaces d.interface).stateTypes
                d.interfaceState).name.isEmpty) := by
    cases h1 : (Interface.findByName tm.supportedInterfaces d.interface).isValid <;>
      cases h2 : (InterfaceStateType.findByName
                (Interface.findByName tm.supportedInterfaces d.interface).stateTypes
                d.interfaceState).name.isEmpty <;>
      simp [descriptorAccepted, hv, ht, h1, h2]
  rw [isValid_mk_and, hacc]
  simp only [List.all_nil, Bool.and_true]
  cases hf : tm.supportedInterfaces.find? (fun i => i.name == d.interface) with
  | none =>
    have hnull : Interface.findByName tm.supportedInterfaces d.interface
        = { name := "", stateTypes := [] } := by
      simp [Interface.findByName, hf]
    rw [hnull]
    have he : Interface.isValid { name := "", stateTypes := [] } = false := by decide
    rw [he]
    simp
  | some iface =>
    have hfound : Interface.findByName tm.supportedInterfaces d.interface = iface := by
      simp [Interface.findByName, hf]
    have hname : iface.name = d.interface := by simpa using List.find?_some hf
    have hvalid : iface.isValid = true := by
      have : d.interface.isEmpty = false := by
        rw [Bool.eq_false_iff]
        exact fun h => hI ((String.isEmpty_iff _).1 h)
      simp [Interface.isValid, hname, this]
    rw [hfound, hvalid]
    simp only [Bool.true_and, Option.some.injEq, exists_eq_left', Bool.not_eq_true']
    cases hs : iface.stateTypes.find? (fun st => st.name == d.interfaceState) with
    | none =>
      have hnone := List.find?_eq_none.1 hs
      have hd : InterfaceStateType.findByName iface.stateTypes d.interfaceState
          = { name := "" } := by
        simp [InterfaceStateType.findByName, hs]
      rw [hd]
      constructor
      · intro h
        exact absurd h (by decide)
      · rintro ⟨st, hm, hst⟩
        exact absurd (by simpa using hst) (hnone st hm)
    | some st =>
      have hstn : st.name = d.interfaceState := by simpa using List.find?_some hs
      have hmem := List.mem_of_find?_eq_some hs
      have hd : InterfaceStateType.findByName iface.stateTypes d.interfaceState = st := by
        simp [InterfaceStateType.findByName, hs]
      rw [hd]
      constructor
      · intro _
        exact ⟨st, hmem, hstn⟩
      · intro _
        rw [hstn, Bool.eq_false_iff]
        intro h
        exact hN ((String.isEmpty_iff _).1 h)

/-- The three lights registry supports `Light` with the state `on`: the leaf
for `(Light, on, Equals, true)` is valid. -/
theorem isValid_byInterface_leaf_iff_witness :
    lightOnDescriptor.isValid = true
      ∧ lightOnDescriptor.type = .TypeInterface
      ∧ (isValid (lights true false true) (.mk lightOnDescriptor [] .StateOperatorAnd) = true
          ↔ ∃ iface, (lights true false true).supportedInterfaces.find?
                (fun i => i.name == lightOnDescriptor.interface) = some iface
              ∧ ∃ st ∈ iface.stateTypes, st.name = lightOnDescriptor.interfaceState)
      ∧ isValid (lights true false true) (.mk lightOnDescriptor [] .StateOperatorAnd) = true
      ∧ isValid emptyRegistry (.mk lightOnDescriptor [] .StateOperatorAnd) = false :=
  ⟨by decide, by decide,
   isValid_byInterface_leaf_iff (lights true false true) lightOnDescriptor (by decide)
     (by decide),
   by decide, by decide⟩

end StateEvaluator

end nymeaserver

namespace nymeaserver

open Types

namespace StateEvaluator

/-! ## Validity under OR and of empty evaluators -/

/-- C11, as stated, fails: over the three lights, the OR node whose own
descriptor names thing 99, which is not configured, has the valid child
`(Light, on, Equals, true)` and is not valid. -/
theorem or_with_valid_child_invalid :
    isValid (lights true true true) (.mk lightOnDescriptor [] .StateOperatorAnd) = true
      ∧ isValid (lights true true true)
          (.mk (StateDescriptor.byThing 11 99 (.bool true) .ValueOperatorEquals)
            [.mk lightOnDescriptor [] .StateOperatorAnd] .StateOperatorOr) = false := by
  decide

/-- C11, amended: an OR node whose own descriptor passes the descriptor check
of `isValid` (it is empty, or its thing, state and value or its interface
and state are accepted) is valid as soon as one of its children is valid;
with such a descriptor it is valid exactly then. -/
theorem isValid_or_of_valid_child (tm : ThingManager) (d : StateDescriptor)
    (cs : List StateEvaluator) (hd : descriptorAccepted tm d = true) :
    ((∃ c ∈ cs, isValid tm c = true) → isValid tm (.mk d cs .StateOperatorOr) = true)
      ∧ (isValid tm (.mk d cs .StateOperatorOr) = true → ∃ c ∈ cs, isValid tm c = true) := by
  rw [isValid_mk_or, hd]
  simp

/-- An OR node with the unset descriptor over the valid leaf
`(Light, on, Equals, true)`: the descriptor passes the check and the node is
valid. -/
theorem isValid_or_of_valid_child_witness :
    descriptorAccepted (lights true true true) StateDescriptor.empty = true
      ∧ isValid (lights true true true)
          (.mk StateDescriptor.empty [.mk lightOnDescriptor [] .StateOperatorAnd]
            .StateOperatorOr) = true :=
  ⟨by decide,
   (isValid_or_of_valid_child (lights true true true) StateDescriptor.empty
      [.mk lightOnDescriptor [] .StateOperatorAnd] (by decide)).1
      ⟨.mk lightOnDescriptor [] .StateOperatorAnd, by simp, by decide⟩⟩

/-- C12, as stated, fails: the evaluator with the unset descriptor, no
children and combinator OR is empty and is not valid. -/
theorem empty_or_not_valid :
    isEmpty (.mk StateDescriptor.empty [] .StateOperatorOr) = true
      ∧ isValid emptyRegistry (.mk StateDescriptor.empty [] .StateOperatorOr) = false := by
  decide

/-- C12, amended: an empty descriptor never makes its node invalid: a node
whose descriptor is not valid is valid exactly when its children are (all of
them under AND, one of them under OR); so an empty evaluator is valid when
its combinator is AND and not valid when it is OR. -/
theorem isValid_of_empty_descriptor (tm : ThingManager) (d : StateDescriptor)
    (cs : List StateEvaluator) (hd : d.isValid = false) :
    isValid tm (.mk d cs .StateOperatorAnd) = cs.all (isValid tm)
      ∧ isValid tm (.mk d cs .StateOperatorOr) = cs.any (isValid tm)
      ∧ isValid tm (.mk d [] .StateOperatorAnd) = true
      ∧ isValid tm (.mk d [] .StateOperatorOr) = false := by
  have hacc : descriptorAccepted tm d = true := by simp [descriptorAccepted, hd]
  simp [isValid_mk_and, isValid_mk_or, hacc]

/-- The unset descriptor without children: valid under AND in the registry
without things. -/
theorem isValid_of_empty_descriptor_witness :
    StateDescriptor.empty.isValid = false
      ∧ isValid emptyRegistry (.mk StateDescriptor.empty [] .StateOperatorAnd) = true :=
  ⟨by decide, (isValid_of_empty_descriptor emptyRegistry StateDescriptor.empty [] (by decide)).2.2.1⟩

end StateEvaluator

/-! ## A call of evaluate leaves the evaluator and the registry as they were -/

theorem ProcessState.write_thingManager (s : ProcessState) (message : EvaluateMessage) :
    (s.write message).thingManager = s.thingManager := rfl

namespace StateEvaluator

theorem interfaceMatchingRun_spec (d : StateDescriptor) (things : List Thing) :
    ∀ s : ProcessState,
      (interfaceMatchingRun d s things).1 = interfaceMatching s.thingManager d things
        ∧ (interfaceMatchingRun d s things).2.thingManager = s.thingManager := by
  induction things with
  | nil => intro s; exact ⟨rfl, rfl⟩
  | cons device rest ih =>
    intro s
    simp only [interfaceMatchingRun, interfaceMatching]
    split_ifs
    · have h := ih (s.write (.noThingClass device.id))
      rw [ProcessState.write_thingManager] at h
      exact h
    · exact ⟨rfl, rfl⟩
    · exact ih s
    · exact ih s

theorem descriptorMatchingRun_spec (s : ProcessState) (d : StateDescriptor) :
    (descriptorMatchingRun s d).1 = descriptorMatching s.thingManager d
      ∧ (descriptorMatchingRun s d).2.thingManager = s.thingManager := by
  unfold descriptorMatchingRun descriptorMatching descriptorMatches
  by_cases hvalid : d.isValid = true
  · by_cases htype : (d.type == .TypeDevice) = true
    · simp only [hvalid, htype, if_true]
      cases hfind : s.thingManager.findConfiguredThing d.thingId with
      | none => exact ⟨rfl, rfl⟩
      | some device =>
        by_cases hhas : device.hasState d.stateTypeId = true
        · by_cases hmatch : d.matchesState (device.state d.stateTypeId) = true
          · simp [hhas, hmatch, ProcessState.write_thingManager]
          · simp [hhas, hmatch]
        · simp [hhas, ProcessState.write_thingManager]
    · simp only [hvalid, htype, if_true, if_false, Bool.false_eq_true]
      exact interfaceMatchingRun_spec d s.thingManager.configuredThings s
  · simp [hvalid]

theorem evaluateAnyRun_spec (cs : List StateEvaluator)
    (ih : ∀ c ∈ cs, ∀ s : ProcessState, (evaluateRun s c).1 = evaluate s.thingManager c
      ∧ (evaluateRun s c).2.1 = c ∧ (evaluateRun s c).2.2.thingManager = s.thingManager) :
    ∀ s : ProcessState, (evaluateAnyRun s cs).1 = evaluateAny s.thingManager cs
      ∧ (evaluateAnyRun s cs).2.1 = cs
      ∧ (evaluateAnyRun s cs).2.2.thingManager = s.thingManager := by
  induction cs with
  | nil => intro s; exact ⟨rfl, rfl, rfl⟩
  | cons c rest ihr =>
    intro s
    obtain ⟨h1, h2, h3⟩ := ih c (List.mem_cons_self c rest) s
    rcases hrun : evaluateRun s c with ⟨r, c1, s1⟩
    rw [hrun] at h1 h2 h3
    simp only at h1 h2 h3
    subst h2
    obtain ⟨g1, g2, g3⟩ := ihr (fun x hx => ih x (List.mem_cons_of_mem _ hx)) s1
    rcases hrest : evaluateAnyRun s1 rest with ⟨r2, rest2, s2⟩
    rw [hrest] at g1 g2 g3
    simp only at g1 g2 g3
    subst g2
    simp only [evaluateAnyRun, evaluateAny, hrun, hrest, ← h1]
    cases r
    · simp [g1, g3, h3]
    · simp [h3, ProcessState.write_thingManager]

theorem evaluateAllRun_spec (cs : List StateEvaluator)
    (ih : ∀ c ∈ cs, ∀ s : ProcessState, (evaluateRun s c).1 = evaluate s.thingManager c
      ∧ (evaluateRun s c).2.1 = c ∧ (evaluateRun s c).2.2.thingManager = s.thingManager) :
    ∀ s : ProcessState, (evaluateAllRun s cs).1 = evaluateAll s.thingManager cs
      ∧ (evaluateAllRun s cs).2.1 = cs
      ∧ (evaluateAllRun s cs).2.2.thingManager = s.thingManager := by
  induction cs with
  | nil => intro s; exact ⟨rfl, rfl, rfl⟩
  | cons c rest ihr =>
    intro s
    obtain ⟨h1, h2, h3⟩ := ih c (List.mem_cons_self c rest) s
    rcases hrun : evaluateRun s c with ⟨r, c1, s1⟩
    rw [hrun] at h1 h2 h3
    simp only at h1 h2 h3
    subst h2
    obtain ⟨g1, g2, g3⟩ := ihr (fun x hx => ih x (List.mem_cons_of_mem _ hx)) s1
    rcases hrest : evaluateAllRun s1 rest with ⟨r2, rest2, s2⟩
    rw [hrest] at g1 g2 g3
    simp only at g1 g2 g3
    subst g2
    simp only [evaluateAllRun, evaluateAll, hrun, hrest, ← h1]
    cases r
    · simp [h3, ProcessState.write_thingManager]
    · simp [g1, g3, h3]

theorem evaluateRun_spec (e : StateEvaluator) :
    ∀ s : ProcessState, (evaluateRun s e).1 = evaluate s.thingManager e
      ∧ (evaluateRun s e).2.1 = e ∧ (evaluateRun s e).2.2.thingManager = s.thingManager := by
  induction e using induction_on with
  | h d cs op ih =>
    intro s
    obtain ⟨m1, m2⟩ :=
      descriptorMatchingRun_spec (s.write (.evaluating op d.isValid cs.length)) d
    rw [ProcessState.write_thingManager] at m1 m2
    rcases hmatch : descriptorMatchingRun (s.write (.evaluating op d.isValid cs.length)) d
      with ⟨matching, s1⟩
    rw [hmatch] at m1 m2
    simp only at m1 m2
    obtain ⟨a1, a2, a3⟩ := evaluateAnyRun_spec cs ih s1
    obtain ⟨b1, b2, b3⟩ := evaluateAllRun_spec cs ih s1
    rcases hany : evaluateAnyRun s1 cs with ⟨r1, cs1, t1⟩
    rcases hall : evaluateAllRun s1 cs with ⟨r2, cs2, t2⟩
    rw [hany] at a1 a2 a3
    rw [hall] at b1 b2 b3
    simp only at a1 a2 a3 b1 b2 b3
    subst a2
    subst b2
    rw [m2] at a1 a3 b1 b3
    simp only [evaluateRun, evaluate, hmatch, hany, hall, ← m1]
    cases op <;> cases matching <;> cases hv : d.isValid <;>
      simp [a1, a3, b1, b3, m2, ProcessState.write_thingManager]

/-- C14: a call of `evaluate()`, followed statement by statement on the
process state, returns the value that the tree and the registry determine,
leaves the evaluator and the registry as they were (only the log grows), and
a second call right after it, in the state the first call left, returns the
same result. For `removalTree` over three lights the call returns true and
writes four lines to the log. -/
theorem evaluateRun_twice (s : ProcessState) (e : StateEvaluator) :
    (evaluateRun s e).1 = evaluate s.thingManager e
      ∧ (evaluateRun s e).2.1 = e
      ∧ (evaluateRun s e).2.2.thingManager = s.thingManager
      ∧ (evaluateRun (evaluateRun s e).2.2 (evaluateRun s e).2.1).1 = (evaluateRun s e).1
      ∧ (evaluateRun ⟨lights false true false, []⟩ removalTree).1 = true
      ∧ (evaluateRun ⟨lights false true false, []⟩ removalTree).2.2
          = ⟨lights false true false,
              [.evaluating .StateOperatorOr true 3, .evaluating .StateOperatorAnd true 0,
               .allMatching, .childTrueOr]⟩ := by
  obtain ⟨h1, h2, h3⟩ := evaluateRun_spec e s
  obtain ⟨g1, _, _⟩ := evaluateRun_spec e (evaluateRun s e).2.2
  refine ⟨h1, h2, h3, ?_, by decide, by decide⟩
  rw [h2, g1, h3, h1]

end StateEvaluator

end nymeaserver

/-! ## ParamList -/

namespace ParamList

open nymeaserver

theorem hasParam_iff (params : ParamList) (paramTypeId : QUuid) :
    hasParam params paramTypeId = true ↔ ∃ p ∈ params, p.paramTypeId = paramTypeId := by
  induction params with
  | nil => simp [hasParam]
  | cons p rest ih =>
    by_cases h : p.paramTypeId = paramTypeId
    · simp [hasParam, h]
    · simp [hasParam, h, ih]

theorem paramValue_eq (params : ParamList) (paramTypeId : QUuid) :
    paramValue params paramTypeId
      = match params.find? (fun p => p.paramTypeId == paramTypeId) with
        | some p => p.value
        | none => QVariant.invalid := by
  induction params with
  | nil => simp [paramValue]
  | cons p rest ih =>
    by_cases h : p.paramTypeId = paramTypeId
    · simp [paramValue, h]
    · simp [paramValue, h, ih, List.find?_cons]

/-- C17: `hasParam(id)` is true exactly when some element has the id;
`paramValue(id)` is the value of the first element with the id when
`hasParam(id)` is true, and the invalid `QVariant` otherwise. -/
theorem hasParam_paramValue (params : ParamList) (paramTypeId : QUuid) :
    (hasParam params paramTypeId = true ↔ ∃ p ∈ params, p.paramTypeId = paramTypeId)
      ∧ (hasParam params paramTypeId = true →
          ∃ before p after, params = before ++ p :: after
            ∧ (∀ q ∈ before, q.paramTypeId ≠ paramTypeId)
            ∧ p.paramTypeId = paramTypeId
            ∧ paramValue params paramTypeId = p.value)
      ∧ (hasParam params paramTypeId = false →
          paramValue params paramTypeId = QVariant.invalid
            ∧ (paramValue params paramTypeId).isValid = false) := by
  refine ⟨hasParam_iff params paramTypeId, ?_, ?_⟩
  · induction params with
    | nil => simp [hasParam]
    | cons p rest ih =>
      intro h
      by_cases hp : p.paramTypeId = paramTypeId
      · exact ⟨[], p, rest, rfl, by simp, hp, by simp [paramValue, hp]⟩
      · have hr : hasParam rest paramTypeId = true := by simpa [hasParam, hp] using h
        obtain ⟨before, q, after, hs, hb, hq, hv⟩ := ih hr
        refine ⟨p :: before, q, after, by simp [hs], ?_, hq, by simp [paramValue, hp, hv]⟩
        intro x hx
        rcases List.mem_cons.1 hx with rfl | hx
        · exact hp
        · exact hb x hx
  · induction params with
    | nil => intro _; exact ⟨rfl, rfl⟩
    | cons p rest ih =>
      intro h
      by_cases hp : p.paramTypeId = paramTypeId
      · simp [hasParam, hp] at h
      · have hr : hasParam rest paramTypeId = false := by simpa [hasParam, hp] using h
        simpa [paramValue, hp] using ih hr

/-- A list with two params of id 4: `hasParam 4` holds and `paramValue 4` is
the value of the first of them. -/
theorem hasParam_paramValue_witness :
    hasParam [⟨3, .int 1⟩, ⟨4, .int 2⟩, ⟨4, .int 5⟩] 4 = true
      ∧ paramValue [⟨3, .int 1⟩, ⟨4, .int 2⟩, ⟨4, .int 5⟩] 4 = .int 2
      ∧ paramValue [⟨3, .int 1⟩, ⟨4, .int 2⟩, ⟨4, .int 5⟩] 9 = .invalid :=
  ⟨by decide, by decide,
   ((hasParam_paramValue [⟨3, .int 1⟩, ⟨4, .int 2⟩, ⟨4, .int 5⟩] 9).2.2 (by decide)).1⟩

/-- C18: `setParamValue(id, value)` returns true exactly when `hasParam(id)`
held before the call; when it returns true, `paramValue(id)` afterwards is
the value and the list differs from the one before only in the value of the
first element with the id; when it returns false the list is unchanged. -/
theorem setParamValue_spec (params : ParamList) (paramTypeId : QUuid) (value : QVariant) :
    ((setParamValue params paramTypeId value).1 = true ↔ hasParam params paramTypeId = true)
      ∧ ((setParamValue params paramTypeId value).1 = true →
          paramValue (setParamValue params paramTypeId value).2 paramTypeId = value
            ∧ (setParamValue params paramTypeId value).2.length = params.length
            ∧ (setParamValue params paramTypeId value).2.map Param.paramTypeId
                = params.map Param.paramTypeId
            ∧ ∃ before p after, params = before ++ p :: after
                ∧ (∀ q ∈ before, q.paramTypeId ≠ paramTypeId)
                ∧ p.paramTypeId = paramTypeId
                ∧ (setParamValue params paramTypeId value).2
                    = before ++ ⟨paramTypeId, value⟩ :: after)
      ∧ ((setParamValue params paramTypeId value).1 = false →
          (setParamValue params paramTypeId value).2 = params) := by
  induction params with
  | nil => simp [setParamValue, hasParam]
  | cons p rest ih =>
    by_cases hp : p.paramTypeId = paramTypeId
    · refine ⟨by simp [setParamValue, hasParam, hp], ?_, by simp [setParamValue, hp]⟩
      intro _
      have hset : setParamValue (p :: rest) paramTypeId value
          = (true, p.setValue value :: rest) := by simp [setParamValue, hp]
      have hid : (p.setValue value).paramTypeId = paramTypeId := by
        simpa [Param.setValue, Param.paramTypeId] using hp
      rw [hset]
      have hval : paramValue (p.setValue value :: rest) paramTypeId = value := by
        simp only [paramValue, hid, beq_self_eq_true, if_true]
        rfl
      refine ⟨hval, by simp, ?_, ?_⟩
      · simp [hid, hp]
      · refine ⟨[], p, rest, rfl, by simp, hp, ?_⟩
        simp only [List.nil_append, List.cons.injEq, and_true]
        cases p
        simp [Param.setValue, Param.paramTypeId] at hp ⊢
        exact hp
    · obtain ⟨ih1, ih2, ih3⟩ := ih
      have hset : setParamValue (p :: rest) paramTypeId value
          = ((setParamValue rest paramTypeId value).1,
              p :: (setParamValue rest paramTypeId value).2) := by
        simp [setParamValue, hp]
      rw [hset]
      refine ⟨by simpa [hasParam, hp] using ih1, ?_, ?_⟩
      · intro h
        obtain ⟨h1, h2, h3, before, q, after, hs, hb, hq, hres⟩ := ih2 h
        refine ⟨by simp [paramValue, hp, h1], by simp [h2], by simp [h3], ?_⟩
        refine ⟨p :: before, q, after, by simp [hs], ?_, hq, by simp [hres]⟩
        intro x hx
        rcases List.mem_cons.1 hx with rfl | hx
        · exact hp
        · exact hb x hx
      · intro h
        simp [ih3 h]

/-- Setting id 4 in a list with two params of id 4 changes the first of
them only; setting an id that does not occur returns false and changes
nothing. -/
theorem setParamValue_spec_witness :
    setParamValue [⟨3, .int 1⟩, ⟨4, .int 2⟩, ⟨4, .int 5⟩] 4 (.bool true)
        = (true, [⟨3, .int 1⟩, ⟨4, .bool true⟩, ⟨4, .int 5⟩])
      ∧ (setParamValue [⟨3, .int 1⟩, ⟨4, .int 2⟩, ⟨4, .int 5⟩] 9 (.bool true)).2
          = [⟨3, .int 1⟩, ⟨4, .int 2⟩, ⟨4, .int 5⟩] :=
  ⟨by decide,
   (setParamValue_spec [⟨3, .int 1⟩, ⟨4, .int 2⟩, ⟨4, .int 5⟩] 9 (.bool true)).2.2
     (by decide)⟩

end ParamList

/-! ## LogEngine -/

namespace guhserver

open nymeaserver Logging

namespace LogEngine

theorem appendLogEntry_entries (engine : LogEngine) (entry : LogEntry) :
    (engine.appendLogEntry true entry).entries = engine.entries ++ [entry]
      ∧ (engine.appendLogEntry false entry) = engine := by
  simp [appendLogEntry]

/-- C16: every rule log entry built by the `LogEngine` has the rule id as
type id and the source rules, and its event type is the one of the call:
trigger, actions executed, exit actions executed, active change with the
entry's active field equal to the rule's, and enabled change with the
entry's active field equal to the `enabled` argument; each call hands
exactly this entry to `appendLogEntry`, which adds it as the last row when
the insert succeeds. -/
theorem rule_log_entries (engine : LogEngine) (now : Nat) (rule : Rule) (enabled : Bool) :
    ((ruleTriggeredEntry now rule).typeId = rule.id
        ∧ (ruleTriggeredEntry now rule).source = .LoggingSourceRules
        ∧ (ruleTriggeredEntry now rule).eventType = .LoggingEventTypeTrigger
        ∧ (engine.logRuleTriggered now true rule).entries
            = engine.entries ++ [ruleTriggeredEntry now rule])
      ∧ ((ruleActionsExecutedEntry now rule).typeId = rule.id
        ∧ (ruleActionsExecutedEntry now rule).source = .LoggingSourceRules
        ∧ (ruleActionsExecutedEntry now rule).eventType = .LoggingEventTypeActionsExecuted
        ∧ (engine.logRuleActionsExecuted now true rule).entries
            = engine.entries ++ [ruleActionsExecutedEntry now rule])
      ∧ ((ruleExitActionsExecutedEntry now rule).typeId = rule.id
        ∧ (ruleExitActionsExecutedEntry now rule).source = .LoggingSourceRules
        ∧ (ruleExitActionsExecutedEntry now rule).eventType
            = .LoggingEventTypeExitActionsExecuted
        ∧ (engine.logRuleExitActionsExecuted now true rule).entries
            = engine.entries ++ [ruleExitActionsExecutedEntry now rule])
      ∧ ((ruleActiveChangedEntry now rule).typeId = rule.id
        ∧ (ruleActiveChangedEntry now rule).source = .LoggingSourceRules
        ∧ (ruleActiveChangedEntry now rule).eventType = .LoggingEventTypeActiveChange
        ∧ (ruleActiveChangedEntry now rule).active = rule.active
        ∧ (engine.logRuleActiveChanged now true rule).entries
            = engine.entries ++ [ruleActiveChangedEntry now rule])
      ∧ ((ruleEnabledChangedEntry now rule enabled).typeId = rule.id
        ∧ (ruleEnabledChangedEntry now rule enabled).source = .LoggingSourceRules
        ∧ (ruleEnabledChangedEntry now rule enabled).eventType
            = .LoggingEventTypeEnabledChange
        ∧ (ruleEnabledChangedEntry now rule enabled).active = enabled
        ∧ (engine.logRuleEnabledChanged now true rule enabled).entries
            = engine.entries ++ [ruleEnabledChangedEntry now rule enabled]) := by
  simp [ruleTriggeredEntry, ruleActionsExecutedEntry, ruleExitActionsExecutedEntry,
    ruleActiveChangedEntry, ruleEnabledChangedEntry, logRuleTriggered,
    logRuleActionsExecuted, logRuleExitActionsExecuted, logRuleActiveChanged,
    logRuleEnabledChanged, appendLogEntry, LogEntry.ofSource, LogEntry.setTypeId,
    LogEntry.setEventType, LogEntry.setActive]

/-- C19: the constructor does not set the limit of 8000 entries that the
class documentation (line 31) states: for the organization `guh`, as for
every organization other than `guh-test`, it sets `m_dbMaxSize` to 50000. -/
theorem create_dbMaxSize :
    (create "guh" []).m_dbMaxSize = 50000
      ∧ (create "guh" []).m_dbMaxSize ≠ 8000
      ∧ (∀ organizationName entries, organizationName ≠ "guh-test" →
          (create organizationName entries).m_dbMaxSize = 50000)
      ∧ ∀ entries, (create "guh-test" entries).m_dbMaxSize = 20 := by
  refine ⟨by decide, by decide, ?_, ?_⟩
  · intro organizationName entries h
    simp [create, h]
  · intro entries
    simp [create]

end LogEngine

end guhserver

/-! ## Rule activation -/

namespace nymeaserver

namespace Rule

theorem run_unsatisfied (rule : Rule) (events : List ThingManager)
    (hactive : rule.active = false)
    (hfalse : ∀ tm ∈ events, rule.stateEvaluator.evaluate tm = false) :
    (rule.run events).1 = rule
      ∧ (rule.run events).2 = List.replicate events.length [] := by
  induction events with
  | nil => simp [run]
  | cons tm rest ih =>
    have h0 : rule.stateEvaluator.evaluate tm = false := hfalse tm (by simp)
    have hstep : rule.transition tm = (rule, []) := by
      simp [transition, hactive, h0]
    have ih' := ih (fun x hx => hfalse x (List.mem_cons_of_mem _ hx))
    simp [run, hstep, ih'.1, ih'.2, List.replicate_succ]

theorem run_satisfied_active (rule : Rule) (events : List ThingManager)
    (henabled : rule.enabled = true) (hactive : rule.active = true)
    (htrue : ∀ tm ∈ events, rule.stateEvaluator.evaluate tm = true) :
    (rule.run events).1 = rule
      ∧ (rule.run events).2 = List.replicate events.length [] := by
  induction events with
  | nil => simp [run]
  | cons tm rest ih =>
    have h0 : rule.stateEvaluator.evaluate tm = true := htrue tm (by simp)
    have hstep : rule.transition tm = (rule, []) := by
      simp [transition, hactive, henabled, h0]
    have ih' := ih (fun x hx => htrue x (List.mem_cons_of_mem _ hx))
    simp [run, hstep, ih'.1, ih'.2, List.replicate_succ]

/-- C15: an enabled rule that starts inactive, fed events at which its
condition is false, then an event at which it is true, then further events
at which it stays true, fires its actions at the event where the condition
becomes true and has no effect at any other event: the actions are fired
exactly once, and the rule ends active. -/
theorem actions_fired_once (rule : Rule) (before : List ThingManager) (edge : ThingManager)
    (later : List ThingManager) (henabled : rule.enabled = true)
    (hactive : rule.active = false)
    (hbefore : ∀ tm ∈ before, rule.stateEvaluator.evaluate tm = false)
    (hedge : rule.stateEvaluator.evaluate edge = true)
    (hlater : ∀ tm ∈ later, rule.stateEvaluator.evaluate tm = true) :
    (rule.run (before ++ edge :: later)).2
        = List.replicate before.length []
            ++ [RuleEffect.ActionsFired rule.id rule.actions, RuleEffect.ActiveChanged rule.id true]
            :: List.replicate later.length []
      ∧ ((rule.run (before ++ edge :: later)).2.flatten.filter RuleEffect.isActionsFired).length = 1
      ∧ (rule.run (before ++ edge :: later)).1.active = true := by
  have hrun_append : ∀ (r : Rule) (xs ys : List ThingManager),
      r.run (xs ++ ys) = ((((r.run xs).1).run ys).1, (r.run xs).2 ++ (((r.run xs).1).run ys).2) := by
    intro r xs
    induction xs generalizing r with
    | nil => intro ys; simp [run]
    | cons x xs ih => intro ys; simp [run, ih]
  have h1 := run_unsatisfied rule before hactive hbefore
  have hstep : rule.transition edge
      = ({ rule with active := true },
          [RuleEffect.ActionsFired rule.id rule.actions, RuleEffect.ActiveChanged rule.id true]) := by
    simp [transition, hactive, henabled, hedge]
  have h2 := run_satisfied_active { rule with active := true } later henabled rfl hlater
  have hall : (rule.run (before ++ edge :: later))
      = ({ rule with active := true },
          List.replicate before.length []
            ++ [RuleEffect.ActionsFired rule.id rule.actions, RuleEffect.ActiveChanged rule.id true]
            :: List.replicate later.length []) := by
    rw [hrun_append, h1.1, h1.2]
    simp only [run, hstep]
    rw [h2.1, h2.2]
  rw [hall]
  refine ⟨rfl, ?_, rfl⟩
  simp [List.flatten_append, RuleEffect.isActionsFired, List.filter_cons]

/-- The rule on `(Light, on, Equals, true)` over five events: all lights off,
then one on (the edge), then three more events with a light on: only the
second event has effects, and the actions are fired once. -/
theorem actions_fired_once_witness :
    (lightRule.run [lights false false false, lights false false true,
        lights true false true, lights false true false, lights true true true]).2
        = [[], [RuleEffect.ActionsFired 40 [{ actionTypeId := 41, thingId := 5 }],
              RuleEffect.ActiveChanged 40 true], [], [], []]
      ∧ ((lightRule.run [lights false false false, lights false false true,
          lights true false true, lights false true false, lights true true true]).2.flatten.filter
            RuleEffect.isActionsFired).length = 1 :=
  ⟨(actions_fired_once lightRule [lights false false false] (lights false false true)
      [lights true false true, lights false true false, lights true true true]
      rfl rfl (by decide) (by decide) (by decide)).1,
   (actions_fired_once lightRule [lights false false false] (lights false false true)
      [lights true false true, lights false true false, lights true true true]
      rfl rfl (by decide) (by decide) (by decide)).2.1⟩

end Rule

end nymeaserver

/-! ## Wake on LAN -/

namespace DevicePluginWakeOnLan

theorem or_shift_eq : ∀ hi, hi < 16 → ∀ lo, lo < 16 → lo ||| (hi <<< 4) = 16 * hi + lo := by
  decide

theorem fromHexDigit_lt (c v : Nat) (h : fromHexDigit c = some v) : v < 16 ∧ c < 128 ∧ c ≠ 58 := by
  unfold fromHexDigit at h
  split at h
  · simp only [Option.some.injEq] at h; omega
  · split at h
    · simp only [Option.some.injEq] at h; omega
    · split at h
      · simp only [Option.some.injEq] at h; omega
      · exact absurd h (by simp)

theorem isHexDigit_spec (c : Char) (h : isHexDigit c = true) :
    fromHexDigit c.toNat = some (hexValue c) ∧ hexValue c < 16 ∧ c.toNat < 128 ∧ c ≠ ':' := by
  unfold isHexDigit at h
  obtain ⟨v, hv⟩ := Option.isSome_iff_exists.1 h
  have hb := fromHexDigit_lt c.toNat v hv
  refine ⟨by simp [hexValue, hv], by simp [hexValue, hv, hb.1], hb.2.1, ?_⟩
  intro hc
  rw [hc] at hb
  exact hb.2.2 (by decide)

theorem filter_macChars (octets : List (Char × Char))
    (hhex : ∀ o ∈ octets, isHexDigit o.1 = true ∧ isHexDigit o.2 = true) :
    (macChars octets).filter (fun c => c != ':') = octets.flatMap (fun o => [o.1, o.2]) := by
  induction octets with
  | nil => simp [macChars]
  | cons o rest ih =>
    have h1 := (isHexDigit_spec o.1 (hhex o (by simp)).1).2.2.2
    have h2 := (isHexDigit_spec o.2 (hhex o (by simp)).2).2.2.2
    have ih' := ih (fun x hx => hhex x (List.mem_cons_of_mem _ hx))
    cases rest with
    | nil => simp [macChars, h1, h2]
    | cons next rest =>
      simp only [macChars, List.flatMap_cons] at ih' ⊢
      simp [List.filter_cons, h1, h2, ih']

theorem filter_hex_pairs (octets : List (Char × Char))
    (hhex : ∀ o ∈ octets, isHexDigit o.1 = true ∧ isHexDigit o.2 = true) :
    (octets.flatMap (fun o => [o.1, o.2])).filter (fun c => c != ':')
      = octets.flatMap (fun o => [o.1, o.2]) := by
  induction octets with
  | nil => simp
  | cons o rest ih =>
    have h1 := (isHexDigit_spec o.1 (hhex o (by simp)).1).2.2.2
    have h2 := (isHexDigit_spec o.2 (hhex o (by simp)).2).2.2.2
    have ih' := ih (fun x hx => hhex x (List.mem_cons_of_mem _ hx))
    simp [List.filter_cons, h1, h2, ih']

theorem toLocal8Bit_hex_pairs (octets : List (Char × Char))
    (hhex : ∀ o ∈ octets, isHexDigit o.1 = true ∧ isHexDigit o.2 = true) :
    toLocal8Bit ⟨octets.flatMap (fun o => [o.1, o.2])⟩
      = octets.flatMap (fun o => [o.1.toNat, o.2.toNat]) := by
  unfold toLocal8Bit
  induction octets with
  | nil => simp
  | cons o rest ih =>
    have h1 := (isHexDigit_spec o.1 (hhex o (by simp)).1).2.2.1
    have h2 := (isHexDigit_spec o.2 (hhex o (by simp)).2).2.2.1
    have ih' := ih (fun x hx => hhex x (List.mem_cons_of_mem _ hx))
    simp only [List.flatMap_cons, List.cons_append, List.nil_append] at ih' ⊢
    simp [localBytes, h1, h2, ih']

theorem fromHexLoop_pairs (octets : List (Char × Char))
    (hhex : ∀ o ∈ octets, isHexDigit o.1 = true ∧ isHexDigit o.2 = true)
    (result : List Nat) :
    fromHexLoop (octets.flatMap (fun o => [o.2.toNat, o.1.toNat])) true result
      = octets.reverse.map octetByte ++ result := by
  induction octets generalizing result with
  | nil => simp [fromHexLoop]
  | cons o rest ih =>
    obtain ⟨hd1, hv1, _, _⟩ := isHexDigit_spec o.1 (hhex o (by simp)).1
    obtain ⟨hd2, hv2, _, _⟩ := isHexDigit_spec o.2 (hhex o (by simp)).2
    have ih' := ih (fun x hx => hhex x (List.mem_cons_of_mem _ hx))
    have hcons : (o :: rest).flatMap (fun o => [o.2.toNat, o.1.toNat])
        = o.2.toNat :: o.1.toNat :: rest.flatMap (fun o => [o.2.toNat, o.1.toNat]) := by
      simp [List.flatMap_cons]
    have hstep : fromHexLoop
          (o.2.toNat :: o.1.toNat :: rest.flatMap (fun o => [o.2.toNat, o.1.toNat])) true result
        = fromHexLoop (rest.flatMap (fun o => [o.2.toNat, o.1.toNat])) true
            ((hexValue o.2 ||| (hexValue o.1 <<< 4)) :: result) := by
      simp only [fromHexLoop, hd1, hd2, if_true, Bool.false_eq_true, if_false]
    rw [hcons, hstep, ih', or_shift_eq _ hv1 _ hv2]
    simp [octetByte]

theorem reverse_hex_pairs (octets : List (Char × Char)) :
    (octets.flatMap (fun o => [o.1.toNat, o.2.toNat])).reverse
      = octets.reverse.flatMap (fun o => [o.2.toNat, o.1.toNat]) := by
  induction octets with
  | nil => simp
  | cons o rest ih => simp [List.flatMap_cons, List.flatMap_append, ih]

theorem fromHex_hex_pairs (octets : List (Char × Char))
    (hhex : ∀ o ∈ octets, isHexDigit o.1 = true ∧ isHexDigit o.2 = true) :
    fromHex (octets.flatMap (fun o => [o.1.toNat, o.2.toNat])) = octets.map octetByte := by
  unfold fromHex
  rw [reverse_hex_pairs, fromHexLoop_pairs octets.reverse (fun o ho => hhex o (by simpa using ho))]
  simp

theorem wakeupLoop_succ (n : Nat) (mac : String) (packet : List Nat) :
    wakeupLoop (n + 1) mac packet
      = wakeupLoop n (remove mac ':') (packet ++ fromHex (toLocal8Bit (remove mac ':'))) :=
  rfl

theorem wakeupLoop_stripped (n : Nat) (octets : List (Char × Char))
    (hhex : ∀ o ∈ octets, isHexDigit o.1 = true ∧ isHexDigit o.2 = true) (packet : List Nat) :
    (wakeupLoop n ⟨octets.flatMap (fun o => [o.1, o.2])⟩ packet).2
      = packet ++ (List.replicate n (octets.map octetByte)).flatten := by
  induction n generalizing packet with
  | zero => simp [wakeupLoop]
  | succ n ih =>
    have hrem : remove ⟨octets.flatMap (fun o => [o.1, o.2])⟩ ':'
        = ⟨octets.flatMap (fun o => [o.1, o.2])⟩ := by
      simp only [remove]
      rw [filter_hex_pairs octets hhex]
    rw [wakeupLoop_succ, hrem, ih, toLocal8Bit_hex_pairs octets hhex,
      fromHex_hex_pairs octets hhex]
    simp [List.replicate_succ, List.append_assoc]

/-- C20: for a MAC address made of six octets of two hexadecimal digits
separated by colons, `wakeup` builds a packet of exactly 102 bytes: six
bytes 0xFF followed by sixteen repetitions of the six bytes of the address
in order. -/
theorem wakeup_magic_packet (octets : List (Char × Char)) (hlen : octets.length = 6)
    (hhex : ∀ o ∈ octets, isHexDigit o.1 = true ∧ isHexDigit o.2 = true) :
    wakeup (macAddress octets)
        = List.replicate 6 0xff ++ (List.replicate 16 (octets.map octetByte)).flatten
      ∧ (wakeup (macAddress octets)).length = 102 := by
  have hpacket : wakeup (macAddress octets)
      = List.replicate 6 0xff ++ (List.replicate 16 (octets.map octetByte)).flatten := by
    have hrem : remove (macAddress octets) ':' = ⟨octets.flatMap (fun o => [o.1, o.2])⟩ := by
      simp only [remove, macAddress]
      rw [filter_macChars octets hhex]
    show (wakeupLoop (15 + 1) (macAddress octets) [0xff, 0xff, 0xff, 0xff, 0xff, 0xff]).2 = _
    rw [wakeupLoop_succ, hrem, wakeupLoop_stripped 15 octets hhex,
      toLocal8Bit_hex_pairs octets hhex, fromHex_hex_pairs octets hhex]
    simp [List.replicate_succ, List.append_assoc]
  refine ⟨hpacket, ?_⟩
  rw [hpacket]
  simp [List.length_flatten, hlen]

/-- The address `00:1a:2B:3c:4D:ff`: its packet starts with six bytes 0xFF
followed by the bytes 0, 26, 43, 60, 77, 255, and is 102 bytes long. -/
theorem wakeup_magic_packet_witness :
    macAddress [('0', '0'), ('1', 'a'), ('2', 'B'), ('3', 'c'), ('4', 'D'), ('f', 'f')]
        = "00:1a:2B:3c:4D:ff"
      ∧ wakeup "00:1a:2B:3c:4D:ff"
        = List.replicate 6 0xff
            ++ (List.replicate 16 [0, 26, 43, 60, 77, 255]).flatten
      ∧ (wakeup "00:1a:2B:3c:4D:ff").length = 102 :=
  ⟨by decide,
   (wakeup_magic_packet
      [('0', '0'), ('1', 'a'), ('2', 'B'), ('3', 'c'), ('4', 'D'), ('f', 'f')] rfl
      (by decide)).1,
   (wakeup_magic_packet
      [('0', '0'), ('1', 'a'), ('2', 'B'), ('3', 'c'), ('4', 'D'), ('f', 'f')] rfl
      (by decide)).2⟩

end DevicePluginWakeOnLan

/-! ## Persistence of a StateEvaluator -/

namespace nymeaserver

namespace StateEvaluator

theorem mapM_option_mono {α β : Type} (f g : α → Option β) (l : List α) (ys : List β)
    (h : ∀ x ∈ l, ∀ y, f x = some y → g x = some y) (hf : l.mapM f = some ys) :
    l.mapM g = some ys := by
  induction l generalizing ys with
  | nil => simpa using hf
  | cons a rest ih =>
    simp only [List.mapM_cons, Option.bind_eq_bind, Option.bind_eq_some, Option.pure_def,
      Option.some.injEq] at hf ⊢
    obtain ⟨y, hy, zs, hzs, hys⟩ := hf
    exact ⟨y, h a (by simp) y hy, zs,
      ih zs (fun x hx => h x (List.mem_cons_of_mem _ hx)) hzs, hys⟩

theorem loadFromSettings_mono (depth : Nat) :
    ∀ (settings : NymeaSettings) (groupName : String) (e : StateEvaluator),
      loadFromSettings depth settings groupName = some e →
      loadFromSettings (depth + 1) settings groupName = some e := by
  induction depth with
  | zero => intro settings groupName e h; simp [loadFromSettings] at h
  | succ depth ih =>
    intro settings groupName e h
    rw [loadFromSettings] at h ⊢
    simp only at h ⊢
    split at h
    · rename_i childEvaluators hc
      rw [mapM_option_mono _ _ _ childEvaluators (fun x _ y hy => ih _ x y hy) hc]
      exact h
    · exact absurd h (by simp)

/-- C13, the failing input: for the AND node over eleven leaves, the leaf at
index `i` naming thing `i + 1`, `loadFromSettings` on the settings written by
`dumpToSettings` under the same group reads the groups of the children in
the order of their names, `stateEvaluator-10` before `stateEvaluator-2`, and
returns the leaves for the things 1, 2, 11, 3, ..., 10: the children are
not in the order in which they were dumped. -/
theorem loadFromSettings_eleven_children :
    elevenChildren.childEvaluators.map (fun c => c.stateDescriptor.thingId)
        = [1, 2, 3, 4, 5, 6, 7, 8, 9, 10, 11]
      ∧ (((dumpToSettings NymeaSettings.empty "rule" elevenChildren).beginGroup
            "rule").beginGroup "childEvaluators").childGroups
        = ["stateEvaluator-0", "stateEvaluator-1", "stateEvaluator-10", "stateEvaluator-2",
            "stateEvaluator-3", "stateEvaluator-4", "stateEvaluator-5", "stateEvaluator-6",
            "stateEvaluator-7", "stateEvaluator-8", "stateEvaluator-9"]
      ∧ (loadFromSettings 2 (dumpToSettings NymeaSettings.empty "rule" elevenChildren)
            "rule").map (fun e => e.childEvaluators.map (fun c => c.stateDescriptor.thingId))
        = some [1, 2, 11, 3, 4, 5, 6, 7, 8, 9, 10] := by
  decide!

/-- The tree `removalTree` (three children, one of them with a child of its
own) is read back with its descriptors and combinators in place. -/
theorem loadFromSettings_removalTree :
    (loadFromSettings 3 (dumpToSettings NymeaSettings.empty "rule" removalTree) "rule").map
        (fun e => (descriptors e, operators e))
      = some (descriptors removalTree, operators removalTree) := by
  decide!

end StateEvaluator

end nymeaserver

/-! ## containsThing and containedThings -/

namespace nymeaserver

namespace StateEvaluator

theorem containedThingsEach_eq (cs : List StateEvaluator)
    (h : ∀ c ∈ cs, containedThings c
      = ((descriptors c).map (fun d => d.thingId)).filter (fun id => !id.isNull)) :
    containedThingsEach cs
      = ((descriptorsEach cs).map (fun d => d.thingId)).filter (fun id => !id.isNull) := by
  induction cs with
  | nil => simp [containedThingsEach, descriptorsEach]
  | cons c rest ih =>
    simp only [containedThingsEach, descriptorsEach, List.map_append, List.filter_append]
    rw [h c (List.mem_cons_self _ _), ih (fun x hx => h x (List.mem_cons_of_mem _ hx))]

theorem containedThings_eq (e : StateEvaluator) :
    containedThings e
      = ((descriptors e).map (fun d => d.thingId)).filter (fun id => !id.isNull) := by
  induction e using induction_on with
  | h d cs op ih =>
    simp only [containedThings, descriptors, List.map_cons]
    rw [containedThingsEach_eq cs ih]
    cases hn : d.thingId.isNull <;> simp [List.filter_cons, hn]

/-- The leaf with the by-interface descriptor `(Light, on, Equals, true)`,
whose thing id is null: `containsThing` of the null id is true while
`containedThings` is empty, so the null id is contained and not listed. -/
theorem containsThing_null_not_listed :
    containsThing 0 (.mk lightOnDescriptor [] .StateOperatorAnd) = true
      ∧ containedThings (.mk lightOnDescriptor [] .StateOperatorAnd) = []
      ∧ ¬ (containsThing 0 (.mk lightOnDescriptor [] .StateOperatorAnd) = true
            ↔ (0 : ThingId) ∈ containedThings (.mk lightOnDescriptor [] .StateOperatorAnd)) := by
  decide

/-- C21: for every tree and every non-null id `containsThing` is true
exactly when the id occurs in `containedThings`, and `containedThings` is
the list of the non-null thing ids of the descriptors in pre-order (the node
first, then the children in list order). -/
theorem containsThing_iff_mem_containedThings (e : StateEvaluator) (thingId : ThingId)
    (hid : thingId.isNull = false) :
    (containsThing thingId e = true ↔ thingId ∈ containedThings e)
      ∧ containedThings e
          = ((descriptors e).map (fun d => d.thingId)).filter (fun id => !id.isNull) := by
  refine ⟨?_, containedThings_eq e⟩
  rw [containsThing_iff, containedThings_eq]
  simp only [List.mem_filter, List.mem_map, hid, Bool.not_false, and_true]

/-- Thing 3 in the tree that names it twice: the id is not null, it occurs
in `containedThings`, and `containsThing` is true. -/
theorem containsThing_iff_mem_containedThings_witness :
    QUuid.isNull 3 = false
      ∧ containedThings removalTree = [3, 2, 3]
      ∧ (containsThing 3 removalTree = true ↔ 3 ∈ containedThings removalTree) :=
  ⟨by decide, by decide, (containsThing_iff_mem_containedThings removalTree 3 (by decide)).1⟩

end StateEvaluator

end nymeaserver

/-! ## UpnpDiscoveryRequest -/

namespace guhserver

namespace UpnpDiscoveryRequest

theorem afterPeriods_succ (r : UpnpDiscoveryRequest) (k : Nat) :
    r.afterPeriods (k + 1) = (r.afterPeriods k).timerPeriod := by
  induction k generalizing r with
  | zero => rfl
  | succ k ih =>
    show (r.timerPeriod).afterPeriods (k + 1) = _
    rw [ih]
    rfl

theorem discover_eq (r : UpnpDiscoveryRequest) (timeout : Nat) :
    r.discover timeout
      = { r with
          sentToMulticast := r.sentToMulticast + 1
          m_totalTriggers := ((timeout / 500 : Nat) : Int)
          m_triggerCounter := 0
          timerActive := true } := by
  simp only [discover]
  rw [show (500 : Int) = ((500 : Nat) : Int) from rfl, ← Int.ofNat_tdiv]

theorem afterPeriods_running (n k s e : Nat) (l : List UpnpDeviceDescriptor) (hk : k ≤ n) :
    afterPeriods { m_totalTriggers := (n : Int), m_triggerCounter := 0, timerActive := true,
                   sentToMulticast := s, discoveryTimeoutEmitted := e, m_deviceList := l } k
      = { m_totalTriggers := (n : Int), m_triggerCounter := (k : Int), timerActive := true,
          sentToMulticast := s + k, discoveryTimeoutEmitted := e, m_deviceList := l } := by
  induction k with
  | zero => simp [afterPeriods]
  | succ k ih =>
    rw [afterPeriods_succ, ih (by omega)]
    have hlt : ¬ ((k : Int) ≥ (n : Int)) := by omega
    simp only [timerPeriod, onTimeout, hlt, if_true, if_false]
    simp
    omega

theorem afterPeriods_stopped (r : UpnpDiscoveryRequest) (k : Nat)
    (h : r.timerActive = false) : r.afterPeriods k = r := by
  induction k with
  | zero => rfl
  | succ k ih => rw [afterPeriods_succ, ih]; simp [timerPeriod, h]

theorem afterPeriods_add (r : UpnpDiscoveryRequest) (j k : Nat) :
    r.afterPeriods (j + k) = (r.afterPeriods j).afterPeriods k := by
  induction k with
  | zero => rfl
  | succ k ih => rw [← Nat.add_assoc, afterPeriods_succ, afterPeriods_succ, ih]

/-- C22: `discover(timeout)` sends the search message once itself and starts
the timer; with `n = timeout / 500`, each of the first `n` periods of 500 ms
sends it again and leaves the timer running without emitting
`discoveryTimeout`; period `n + 1` sends it once more, stops the timer and
emits `discoveryTimeout`; nothing is sent after that.  So the message is
sent `n + 2` times, not `n` times: for a timeout of 5000 ms twelve times,
the last one 5500 ms after the call. -/
theorem discover_sends (r : UpnpDiscoveryRequest) (timeout : Nat) :
    (∀ k, k ≤ timeout / 500 →
        ((r.discover timeout).afterPeriods k).sentToMulticast = r.sentToMulticast + 1 + k
          ∧ ((r.discover timeout).afterPeriods k).timerActive = true
          ∧ ((r.discover timeout).afterPeriods k).discoveryTimeoutEmitted
              = r.discoveryTimeoutEmitted)
      ∧ (∀ k, timeout / 500 + 1 ≤ k →
        ((r.discover timeout).afterPeriods k).sentToMulticast
            = r.sentToMulticast + (timeout / 500 + 2)
          ∧ ((r.discover timeout).afterPeriods k).timerActive = false
          ∧ ((r.discover timeout).afterPeriods k).discoveryTimeoutEmitted
              = r.discoveryTimeoutEmitted + 1)
      ∧ ((create.discover 5000).afterPeriods 11).sentToMulticast = 12
      ∧ ((create.discover 5000).afterPeriods 10).discoveryTimeoutEmitted = 0
      ∧ ((create.discover 5000).afterPeriods 11).discoveryTimeoutEmitted = 1 := by
  refine ⟨?_, ?_, by decide, by decide, by decide⟩
  · intro k hk
    rw [discover_eq, afterPeriods_running (timeout / 500) k _ _ _ hk]
    simp
  · intro k hk
    have hlast : (r.discover timeout).afterPeriods (timeout / 500 + 1)
        = { r with
            sentToMulticast := r.sentToMulticast + (timeout / 500 + 2)
            m_totalTriggers := ((timeout / 500 : Nat) : Int)
            m_triggerCounter := ((timeout / 500 : Nat) : Int)
            timerActive := false
            discoveryTimeoutEmitted := r.discoveryTimeoutEmitted + 1 } := by
      rw [afterPeriods_succ, discover_eq,
        afterPeriods_running (timeout / 500) _ _ _ _ (Nat.le_refl _)]
      simp only [timerPeriod, onTimeout, ge_iff_le, Int.le_refl, if_true]
      simp
      omega
    obtain ⟨j, rfl⟩ : ∃ j, k = timeout / 500 + 1 + j := ⟨k - (timeout / 500 + 1), by omega⟩
    rw [afterPeriods_add, hlast, afterPeriods_stopped _ j rfl]
    simp

theorem isAlreadyInList_eq (uuid : String) (l : List UpnpDeviceDescriptor) (found : Bool) :
    isAlreadyInList uuid l found = (found || l.any (fun d => d.uuid == uuid)) := by
  induction l generalizing found with
  | nil => simp [isAlreadyInList]
  | cons d rest ih =>
    rw [isAlreadyInList, ih]
    cases h : d.uuid == uuid <;> cases found <;> simp [h]

theorem addDeviceDescriptors_deviceList (r : UpnpDiscoveryRequest)
    (ds : List UpnpDeviceDescriptor) :
    (r.addDeviceDescriptors ds).deviceList
      = r.m_deviceList
          ++ (firstArrivals ds).filter
              (fun x => !r.m_deviceList.any (fun d => d.uuid == x.uuid)) := by
  induction ds generalizing r with
  | nil => simp [addDeviceDescriptors, deviceList, firstArrivals]
  | cons d rest ih =>
    rw [addDeviceDescriptors, ih]
    simp only [addDeviceDescriptor, isAlreadyInList_eq, Bool.false_or, firstArrivals]
    cases hany : r.m_deviceList.any (fun x => x.uuid == d.uuid) with
    | true =>
      simp only [Bool.not_true, Bool.false_eq_true, if_false, List.filter_cons, hany,
        List.filter_filter]
      congr 1
      apply List.filter_congr
      intro x _
      by_cases hx : x.uuid = d.uuid
      · simp [hx, hany]
      · simp [hx]
    | false =>
      simp only [Bool.not_false, if_true, List.filter_cons, hany, List.filter_filter,
        List.append_assoc, List.singleton_append]
      congr 2
      apply List.filter_congr
      intro x _
      by_cases hx : x.uuid = d.uuid
      · simp [hx, hany]
      · have h1 : (d.uuid == x.uuid) = false := by
          simpa using fun h : d.uuid = x.uuid => hx h.symm
        have h2 : (x.uuid != d.uuid) = true := by simpa using hx
        simp [h1, h2, List.any_append]

theorem firstArrivals_sublist (ds : List UpnpDeviceDescriptor) :
    (firstArrivals ds).Sublist ds := by
  induction ds with
  | nil => simp [firstArrivals]
  | cons d rest ih =>
    exact List.Sublist.cons₂ d ((List.filter_sublist _).trans ih)

theorem firstArrivals_nodup (ds : List UpnpDeviceDescriptor) :
    ((firstArrivals ds).map UpnpDeviceDescriptor.uuid).Nodup := by
  induction ds with
  | nil => simp [firstArrivals]
  | cons d rest ih =>
    simp only [firstArrivals, List.map_cons, List.nodup_cons, List.mem_map, List.mem_filter]
    constructor
    · rintro ⟨x, ⟨_, hx⟩, hxu⟩
      simp [hxu] at hx
    · exact ih.sublist ((List.filter_sublist _).map _)

theorem firstArrivals_find (ds : List UpnpDeviceDescriptor) (uuid : String) :
    (firstArrivals ds).find? (fun d => d.uuid == uuid) = ds.find? (fun d => d.uuid == uuid) := by
  induction ds with
  | nil => simp [firstArrivals]
  | cons d rest ih =>
    by_cases hd : d.uuid = uuid
    · simp [firstArrivals, hd]
    · have hdb : (d.uuid == uuid) = false := by simpa using hd
      simp only [firstArrivals, List.find?_cons, hdb]
      rw [← ih]
      simp only [List.find?_filter]
      refine congrArg (fun p => List.find? p (firstArrivals rest)) ?_
      funext x
      by_cases hx : x.uuid = uuid
      · have hud : ¬ uuid = d.uuid := fun h => hd h.symm
        simp [hx, hud]
      · simp [hx]

/-- C23: starting from an empty device list, after any sequence of
`addDeviceDescriptor` calls the device list is the list of the first
arrivals: its uuids are pairwise distinct, for every uuid it holds the first
descriptor that was added with that uuid (and none when no such descriptor
was added), and it is a sublist of the sequence of the calls, so the
descriptors are in the order of their first arrival. -/
theorem addDeviceDescriptors_first_arrivals (r : UpnpDiscoveryRequest)
    (ds : List UpnpDeviceDescriptor) (hempty : r.m_deviceList = []) :
    (r.addDeviceDescriptors ds).deviceList = firstArrivals ds
      ∧ ((r.addDeviceDescriptors ds).deviceList.map UpnpDeviceDescriptor.uuid).Nodup
      ∧ (∀ uuid, (r.addDeviceDescriptors ds).deviceList.find? (fun d => d.uuid == uuid)
          = ds.find? (fun d => d.uuid == uuid))
      ∧ (r.addDeviceDescriptors ds).deviceList.Sublist ds := by
  have h : (r.addDeviceDescriptors ds).deviceList = firstArrivals ds := by
    rw [addDeviceDescriptors_deviceList, hempty]
    simp
  rw [h]
  exact ⟨rfl, firstArrivals_nodup ds, firstArrivals_find ds, firstArrivals_sublist ds⟩

/-- Three arrivals, the third with the uuid of the first: the list holds the
first and the second. -/
theorem addDeviceDescriptors_first_arrivals_witness :
    (create.addDeviceDescriptors
        [upnpDevice "uuid-a" "tv" "10.0.0.2", upnpDevice "uuid-b" "nas" "10.0.0.3",
         upnpDevice "uuid-a" "tv again" "10.0.0.4"]).deviceList
      = [upnpDevice "uuid-a" "tv" "10.0.0.2", upnpDevice "uuid-b" "nas" "10.0.0.3"] :=
  (addDeviceDescriptors_first_arrivals create
      [upnpDevice "uuid-a" "tv" "10.0.0.2", upnpDevice "uuid-b" "nas" "10.0.0.3",
       upnpDevice "uuid-a" "tv again" "10.0.0.4"] rfl).1.trans (by decide)

end UpnpDiscoveryRequest

end guhserver

namespace DevicePluginUsbWde

/-! ## The frames of the USB WDE receiver -/

theorem contains_iff_infix (pattern data : List Char) :
    contains pattern data = true ↔ pattern <:+: data := by
  induction data with
  | nil => simp [contains]
  | cons c rest ih =>
    rw [contains, Bool.or_eq_true, ih, List.isPrefixOf_iff_prefix, List.infix_cons_iff]

theorem frameRejected_eq_false (parts : List (List Char)) :
    frameRejected parts = some false ↔
      parts.length = 25 ∧ ∃ first last, parts[0]? = some first ∧ parts[24]? = some last ∧
        "$1".data <:+: first ∧ "0".data <:+: last := by
  unfold frameRejected partAt
  by_cases hlen : parts.length = 25
  · obtain ⟨first, hfirst⟩ : ∃ first, parts[0]? = some first :=
      ⟨parts[0], List.getElem?_eq_getElem (by omega)⟩
    obtain ⟨last, hlast⟩ : ∃ last, parts[24]? = some last :=
      ⟨parts[24], List.getElem?_eq_getElem (by omega)⟩
    simp only [hlen, bne_self_eq_false, Bool.false_eq_true, if_false, hfirst, hlast,
      Option.bind_eq_bind, Option.some_bind, true_and, Option.some.injEq, exists_and_left,
      exists_eq_left', ← contains_iff_infix]
    by_cases h1 : contains "$1".data first = true
    · simp [h1]
    · simp [h1]
  · simp [hlen]

theorem frameRejected_total (parts : List (List Char)) :
    frameRejected parts = some false ∨ frameRejected parts = some true := by
  unfold frameRejected partAt
  by_cases hlen : parts.length = 25
  · obtain ⟨first, hfirst⟩ : ∃ first, parts[0]? = some first :=
      ⟨parts[0], List.getElem?_eq_getElem (by omega)⟩
    obtain ⟨last, hlast⟩ : ∃ last, parts[24]? = some last :=
      ⟨parts[24], List.getElem?_eq_getElem (by omega)⟩
    simp only [hlen, bne_self_eq_false, Bool.false_eq_true, if_false, hfirst, hlast,
      Option.bind_eq_bind, Option.some_bind]
    by_cases h1 : contains "$1".data first = true
    · by_cases h2 : contains "0".data last = true
      · simp [h1, h2]
      · simp [h1, h2]
    · simp [h1]
  · simp [hlen]

/-- C24: the validity check of `guhTimer` accepts a buffer exactly when it
splits into 25 parts, the first part contains `$1` somewhere and the last
part contains `0` somewhere; every other non-empty buffer has no effect on
the sensors and is cleared. The check is wider than a first part that starts
with `$1` and a last part that ends with `0`: the buffer `looseFrame`, whose
first part is `x$1` and whose last part is `0x`, is taken as a frame and
announces a sensor for channel 1. -/
theorem guhTimer_frame_check :
    (∀ parts : List (List Char), frameRejected parts = some false ↔
      parts.length = 25 ∧ ∃ first last, parts[0]? = some first ∧ parts[24]? = some last ∧
        "$1".data <:+: first ∧ "0".data <:+: last) ∧
    (∀ (plugin : Plugin) (now : Nat), plugin.m_readData ≠ [] →
      frameRejected (split ';' plugin.m_readData) ≠ some false →
      guhTimer plugin now = some ({ plugin with m_readData := [] }, [])) ∧
    ((split ';' looseFrame).length = 25 ∧
      (split ';' looseFrame)[0]? = some "x$1".data ∧ ¬ "$1".data <+: "x$1".data ∧
      (split ';' looseFrame)[24]? = some "0x".data ∧ ¬ "0".data <:+ "0x".data ∧
      ∀ now : Nat, guhTimer ⟨looseFrame, []⟩ now = some (⟨[], []⟩, [.createNewSensor 1])) := by
  refine ⟨frameRejected_eq_false, ?_, by decide, by decide, by decide, by decide, by decide,
    fun now => ?_⟩
  · intro plugin now hdata hrejected
    have htrue : frameRejected (split ';' plugin.m_readData) = some true := by
      rcases frameRejected_total (split ';' plugin.m_readData) with h | h
      · exact absurd h hrejected
      · exact h
    have hempty : plugin.m_readData.isEmpty = false := by
      cases hd : plugin.m_readData with
      | nil => exact absurd hd hdata
      | cons c rest => rfl
    simp [guhTimer, hempty, htrue]
  · rfl

theorem partAt_of_length {parts : List (List Char)} (hlen : parts.length = 25) (index : Nat)
    (hindex : index < 25) : ∃ part, partAt parts index = some part :=
  ⟨parts[index], List.getElem?_eq_getElem (by omega)⟩

theorem channelStep_spec (now : Nat) (parts : List (List Char)) (m_deviceList : List Int)
    (hlen : parts.length = 25) (i : Nat) (hlow : 1 ≤ i) (hhigh : i ≤ 8) :
    ∃ effects, channelStep now parts m_deviceList i = some effects ∧
      (∀ effect ∈ effects, effect.channel = (i : Int) ∧
        ((i : Int) ∉ m_deviceList → effect = .createNewSensor i)) ∧
      (∀ temperature, parts[2 + i]? = some temperature → temperature ≠ [] →
        (i : Int) ∉ m_deviceList → effects = [.createNewSensor i]) := by
  obtain ⟨temperature, htemperature⟩ := partAt_of_length hlen (2 + i) (by omega)
  obtain ⟨humidity, hhumidity⟩ := partAt_of_length hlen (2 + i + 8) (by omega)
  have htemperature2 : parts[2 + i]? = some temperature := htemperature
  unfold channelStep
  rw [htemperature, hhumidity]
  by_cases hnil : temperature = []
  · subst hnil
    refine ⟨[], by simp, by simp, ?_⟩
    intro t ht hne
    rw [htemperature2] at ht
    exact absurd (Option.some.inj ht).symm hne
  · have hisEmpty : temperature.isEmpty = false := by
      cases temperature with
      | nil => exact absurd rfl hnil
      | cons c rest => rfl
    by_cases hknown : (i : Int) ∈ m_deviceList
    · refine ⟨[.setStateValue i .temperatureStateTypeId (.germanToDouble temperature),
          .setStateValue i .humidityStateTypeId (.toInt humidity),
          .setStateValue i .lastUpdateStateTypeId (.currentTime now)],
        by simp [hnil, hknown], ?_, ?_⟩
      · intro effect heffect
        simp only [List.mem_cons, List.mem_singleton, List.not_mem_nil, or_false] at heffect
        rcases heffect with h | h | h <;> subst h <;> exact ⟨rfl, fun hn => absurd hknown hn⟩
      · intro t _ _ hn
        exact absurd hknown hn
    · refine ⟨[.createNewSensor i], by simp [hnil, hknown], ?_, ?_⟩
      · intro effect heffect
        simp only [List.mem_singleton] at heffect
        subst heffect
        exact ⟨rfl, fun _ => rfl⟩
      · intro _ _ _ _
        rfl

theorem channelLoop_spec (now : Nat) (parts : List (List Char)) (m_deviceList : List Int)
    (hlen : parts.length = 25) (count i : Nat) (hlow : 1 ≤ i) (hhigh : i + count ≤ 9) :
    ∃ effects, channelLoop now parts m_deviceList i count = some effects ∧
      (∀ effect ∈ effects, effect.channel ∉ m_deviceList →
        effect = .createNewSensor effect.channel) ∧
      (∀ j : Nat, i ≤ j → j < i + count → ∀ temperature, parts[2 + j]? = some temperature →
        temperature ≠ [] → (j : Int) ∉ m_deviceList → .createNewSensor j ∈ effects) := by
  induction count generalizing i with
  | zero =>
    refine ⟨[], rfl, by simp, ?_⟩
    intro j h1 h2
    omega
  | succ count ih =>
    obtain ⟨first, hfirst, hfirstOnly, hfirstNew⟩ :=
      channelStep_spec now parts m_deviceList hlen i hlow (by omega)
    obtain ⟨later, hlater, hlaterOnly, hlaterNew⟩ := ih (i + 1) (by omega) (by omega)
    refine ⟨first ++ later, by simp [channelLoop, hfirst, hlater], ?_, ?_⟩
    · intro effect heffect hunknown
      rcases List.mem_append.mp heffect with h | h
      · obtain ⟨hchannel, honly⟩ := hfirstOnly effect h
        rw [hchannel] at hunknown ⊢
        exact honly hunknown
      · exact hlaterOnly effect h hunknown
    · intro j h1 h2 temperature htemperature hne hunknown
      by_cases hj : j = i
      · subst hj
        rw [hfirstNew temperature htemperature hne hunknown]
        simp
      · exact List.mem_append_right _
          (hlaterNew j (by omega) (by omega) temperature htemperature hne hunknown)

theorem windStep_spec (now : Nat) (parts : List (List Char)) (m_deviceList : List Int)
    (hlen : parts.length = 25) :
    ∃ effects, windStep now parts m_deviceList = some effects ∧
      (∀ effect ∈ effects, effect.channel ∉ m_deviceList →
        effect = .createNewSensor effect.channel) ∧
      (∀ temperature, parts[19]? = some temperature → temperature ≠ [] →
        (9 : Int) ∉ m_deviceList → .createNewSensor 9 ∈ effects) := by
  obtain ⟨temperature, htemperature⟩ := partAt_of_length hlen 19 (by omega)
  obtain ⟨humidity, hhumidity⟩ := partAt_of_length hlen 20 (by omega)
  obtain ⟨wind, hwind⟩ := partAt_of_length hlen 21 (by omega)
  obtain ⟨rain, hrain⟩ := partAt_of_length hlen 22 (by omega)
  obtain ⟨isRain, hisRain⟩ := partAt_of_length hlen 23 (by omega)
  have htemperature2 : parts[19]? = some temperature := htemperature
  unfold windStep
  rw [htemperature, hhumidity, hwind, hrain, hisRain]
  by_cases hnil : temperature = []
  · subst hnil
    refine ⟨[], by simp, by simp, ?_⟩
    intro t ht hne
    rw [htemperature2] at ht
    exact absurd (Option.some.inj ht).symm hne
  · have hisEmpty : temperature.isEmpty = false := by
      cases temperature with
      | nil => exact absurd rfl hnil
      | cons c rest => rfl
    by_cases hknown : (9 : Int) ∈ m_deviceList
    · refine ⟨[.setStateValue 9 .temperatureStateTypeId (.germanToDouble temperature),
          .setStateValue 9 .humidityStateTypeId (.toInt humidity),
          .setStateValue 9 .windStrengthStateTypeId (.germanToDouble wind),
          .setStateValue 9 .rainStrengthStateTypeId (.germanToDouble rain),
          .setStateValue 9 .isRainStateTypeId (.bool (isRain == "1".data)),
          .setStateValue 9 .lastUpdateStateTypeId (.currentTime now)],
        by simp [hnil, hknown], ?_, ?_⟩
      · intro effect heffect hunknown
        simp only [List.mem_cons, List.mem_singleton, List.not_mem_nil, or_false] at heffect
        rcases heffect with h | h | h | h | h | h <;> subst h <;> exact absurd hknown hunknown
      · intro t _ _ hn
        exact absurd hknown hn
    · refine ⟨[.createNewSensor 9], by simp [hnil, hknown], ?_, ?_⟩
      · intro effect heffect _
        simp only [List.mem_singleton] at heffect
        subst heffect
        rfl
      · intro _ _ _ _
        simp

/-- C25: for a non-empty buffer that the validity check of `guhTimer`
accepts, every part index that `guhTimer` reads lies below the number of
parts, the call returns (no part is read out of range) with the buffer
empty, every effect on a channel without a device is the announcement of
that channel (so no state value is set there), and each channel 1 to 8, and
the station on channel 9, that has a non-empty temperature part and no
device is announced. -/
theorem guhTimer_accepted_frame (plugin : Plugin) (now : Nat)
    (hdata : plugin.m_readData ≠ [])
    (haccepted : frameRejected (split ';' plugin.m_readData) = some false) :
    (split ';' plugin.m_readData).length = 25 ∧
    (∀ index ∈ readIndices, index < (split ';' plugin.m_readData).length) ∧
    ∃ effects, guhTimer plugin now = some ({ plugin with m_readData := [] }, effects) ∧
      (∀ effect ∈ effects, effect.channel ∉ plugin.m_deviceList →
        effect = .createNewSensor effect.channel) ∧
      (∀ i : Nat, 1 ≤ i → i ≤ 8 → ∀ temperature,
        (split ';' plugin.m_readData)[2 + i]? = some temperature → temperature ≠ [] →
        (i : Int) ∉ plugin.m_deviceList → .createNewSensor i ∈ effects) ∧
      (∀ temperature, (split ';' plugin.m_readData)[19]? = some temperature →
        temperature ≠ [] → (9 : Int) ∉ plugin.m_deviceList → .createNewSensor 9 ∈ effects) := by
  have hlen : (split ';' plugin.m_readData).length = 25 :=
    ((frameRejected_eq_false _).mp haccepted).1
  have hempty : plugin.m_readData.isEmpty = false := by
    cases hd : plugin.m_readData with
    | nil => exact absurd hd hdata
    | cons c rest => rfl
  obtain ⟨sensors, hsensors, hsensorsOnly, hsensorsNew⟩ :=
    channelLoop_spec now (split ';' plugin.m_readData) plugin.m_deviceList hlen 8 1
      (by omega) (by omega)
  obtain ⟨station, hstation, hstationOnly, hstationNew⟩ :=
    windStep_spec now (split ';' plugin.m_readData) plugin.m_deviceList hlen
  refine ⟨hlen, ?_, sensors ++ station, ?_, ?_, ?_, ?_⟩
  · rw [hlen]
    decide
  · simp [guhTimer, hempty, haccepted, hsensors, hstation]
  · intro effect heffect hunknown
    rcases List.mem_append.mp heffect with h | h
    · exact hsensorsOnly effect h hunknown
    · exact hstationOnly effect h hunknown
  · intro i h1 h8 temperature htemperature hne hunknown
    exact List.mem_append_left _
      (hsensorsNew i h1 (by omega) temperature htemperature hne hunknown)
  · intro temperature htemperature hne hunknown
    exact List.mem_append_right _ (hstationNew temperature htemperature hne hunknown)

/-- The frame `sampleFrame` with a device for channel 1 only: the states of
channel 1 are set, and the station on channel 9 is announced and gets no
state. -/
theorem guhTimer_accepted_frame_witness :
    sampleFrame ≠ [] ∧ frameRejected (split ';' sampleFrame) = some false ∧
    guhTimer ⟨sampleFrame, [1]⟩ 7 = some (⟨[], [1]⟩,
      [.setStateValue 1 .temperatureStateTypeId (.germanToDouble "21,5".data),
       .setStateValue 1 .humidityStateTypeId (.toInt "45".data),
       .setStateValue 1 .lastUpdateStateTypeId (.currentTime 7),
       .createNewSensor 9]) ∧
    ∃ effects, guhTimer ⟨sampleFrame, [1]⟩ 7 = some (⟨[], [1]⟩, effects) ∧
      (∀ effect ∈ effects, effect.channel ∉ [(1 : Int)] →
        effect = .createNewSensor effect.channel) :=
  ⟨by decide, by decide, by decide,
    (guhTimer_accepted_frame ⟨sampleFrame, [1]⟩ 7 (by decide) (by decide)).2.2.imp
      (fun _ h => ⟨h.1, h.2.1⟩)⟩

end DevicePluginUsbWde
